import Mathlib

/-!
Shallow embedding of the Decentralized Voting DAO core contracts
(`GovernanceToken`, `DAOGovernance`, `DAOTreasury`, library `VotingMechanisms`)
and proofs about the specified properties.

Modelling conventions:
* Solidity `uint256` values are modelled as `Nat`.  Solidity 0.8 checked
  arithmetic reverts on under/overflow; every subtraction that is reachable
  with a too-small minuend is guarded explicitly (returning an error, i.e. a
  revert), and the explicit overflow guard of `calculateQuadraticCost` is
  modelled with the `2^128 - 1` bound from the source.
* `address` is modelled as `Nat`, with `0` playing the role of `address(0)`
  exactly as in the source (e.g. `delegatedTo[a] == address(0)` means "no
  outgoing delegation").
* A reverting call is modelled by `Except.error`: the caller's state is left
  unchanged, which is precisely the EVM revert semantics.
* External calls whose outcome the contract only observes as success/failure
  (the ETH `call` in `DAOTreasury.executeProposal`, token transfers) take the
  outcome as an explicit `Bool`/oracle argument of the operation.
-/

/-- Maximum value of a `uint256`. -/
def UMAX : Nat := 2 ^ 256 - 1

/-- One whole token in wei, the `10**18` scale factor used by `DAOGovernance.vote`. -/
def WEI : Nat := 10 ^ 18

/-- Addresses / account identities; `0` is `address(0)`. -/
abbrev Account := Nat

/-- Error taxonomy for revert reasons, following the spec's classification
(§7): validation, authorization, lifecycle-state, funds/power, not-found,
quorum, approval; `tokenError` covers reverts raised inside the
`GovernanceToken` collaborator and `overflowError` covers checked-arithmetic
reverts. -/
inductive Err where
  | validationError
  | authorizationError
  | stateError
  | insufficientPower
  | insufficientFunds
  | notFound
  | quorumNotMet
  | notApproved
  | tokenError
  | overflowError
  | transferFailed
deriving DecidableEq, Repr

/-- Point update of a map (Solidity `m[k] = v`). -/
def upd {α β : Type} [DecidableEq α] (f : α → β) (k : α) (v : β) : α → β :=
  fun a => if a = k then v else f a

/-! ## VotingMechanisms (pure library)

Direct translation of `contracts/VotingMechanisms.sol`.  The `require`
statements become `Except.error`; the overflow guard
`votes <= type(uint128).max` is the bound `votes ≤ 2^128 - 1`. -/

/-- Source `VotingMechanisms.calculateQuadraticCost`: reverts on `votes == 0` and on
`votes > type(uint128).max`, otherwise returns `votes * votes` (which cannot
overflow a `uint256` under the guard). -/
def calculateQuadraticCost (votes : Nat) : Except Err Nat :=
  if votes = 0 then .error .validationError
  else if 2 ^ 128 - 1 < votes then .error .validationError
  else .ok (votes * votes)

/-- Source `VotingMechanisms.calculateMaxVotes`: integer square root of the balance. -/
def calculateMaxVotes (tokenBalance : Nat) : Nat :=
  if tokenBalance = 0 then 0 else Nat.sqrt tokenBalance

/-- Source `VotingMechanisms.validateVote`: `(false, 0)` on out-of-range vote counts,
otherwise pairs the quadratic cost with the affordability flag; the call
reverts when `calculateQuadraticCost` reverts (only possible for
`votes > type(uint128).max`). -/
def validateVote (votes maxVotesPerWallet tokenBalance : Nat) :
    Except Err (Bool × Nat) :=
  if votes = 0 then .ok (false, 0)
  else if maxVotesPerWallet < votes then .ok (false, 0)
  else
    match calculateQuadraticCost votes with
    | .error e => .error e
    | .ok cost => .ok (decide (cost ≤ tokenBalance), cost)

/-! ## GovernanceToken (ERC20 + ERC20Votes collaborator)

Translation of `GovernanceToken.sol` together with the OpenZeppelin
`ERC20`/`ERC20Votes` behaviour it inherits: `getVotingPower` returns the
checkpointed `getVotes`, and every balance update moves the corresponding
voting units between the token-level delegatees of the two endpoints. -/

/-- Hard supply cap of `GovernanceToken` (`MAX_SUPPLY`). -/
def MAX_SUPPLY : Nat := 1000000000 * WEI

structure TokenState where
  balance : Account → Nat
  allowance : Account → Account → Nat
  delegatee : Account → Account
  votes : Account → Nat
  totalSupply : Nat
  minters : Account → Bool
  owner : Account
  paused : Bool

/-- ERC20Votes `_transferVotingUnits`: move `amount` voting units from the
delegatee of the sender to the delegatee of the receiver (`0` = undelegated,
no tracked units).  ERC20Votes maintains
`votes d = Σ balances of the accounts delegating to d`, so the subtraction
can never truncate on states reachable through the token's own interface. -/
def moveVotingUnits (votes : Account → Nat) (fromD toD : Account)
    (amount : Nat) : Account → Nat :=
  let v1 := if fromD ≠ 0 then upd votes fromD (votes fromD - amount) else votes
  if toD ≠ 0 then upd v1 toD (v1 toD + amount) else v1

/-- Source `GovernanceToken._update` (the `whenNotPaused` override of
`ERC20._update` + `ERC20Votes._update`): balances, total supply and voting
units move together; `fromA = 0` is a mint, `toA = 0` is a burn. -/
def tokenUpdate (t : TokenState) (fromA toA : Account) (amount : Nat) :
    Except Err TokenState :=
  if t.paused then .error .tokenError
  else if fromA ≠ 0 ∧ t.balance fromA < amount then .error .tokenError
  else
    let b1 := if fromA ≠ 0 then upd t.balance fromA (t.balance fromA - amount)
      else t.balance
    let b2 := if toA ≠ 0 then upd b1 toA (b1 toA + amount) else b1
    let supply1 := if fromA = 0 then t.totalSupply + amount else t.totalSupply
    let supply2 := if toA = 0 then supply1 - amount else supply1
    .ok { t with
      balance := b2
      totalSupply := supply2
      votes := moveVotingUnits t.votes (t.delegatee fromA) (t.delegatee toA)
        amount }

/-- Source `GovernanceToken.getVotingPower`: the checkpointed `getVotes` value. -/
def getVotingPower (t : TokenState) (account : Account) : Nat :=
  t.votes account

/-- Source `ERC20.approve` (sets the allowance; reverts on the zero spender). -/
def approveOp (t : TokenState) (sender spender : Account) (amount : Nat) :
    Except Err TokenState :=
  if spender = 0 then .error .tokenError
  else .ok { t with
    allowance := upd t.allowance sender (upd (t.allowance sender) spender
      amount) }

/-- Source `ERC20Votes.delegate`: records the token-level delegatee of the sender
and moves the sender's balance worth of voting units from the old delegatee
to the new one. -/
def tokenDelegateOp (t : TokenState) (sender delegateeA : Account) :
    TokenState :=
  { t with
    delegatee := upd t.delegatee sender delegateeA
    votes := moveVotingUnits t.votes (t.delegatee sender) delegateeA
      (t.balance sender) }

/-- Source `GovernanceToken.mint`: minter/owner-gated, zero-receiver and supply-cap
guarded, then `_update(0, to, amount)`. -/
def mintOp (t : TokenState) (sender toA : Account) (amount : Nat) :
    Except Err TokenState :=
  if ¬(t.minters sender ∨ sender = t.owner) then .error .authorizationError
  else if toA = 0 then .error .validationError
  else if MAX_SUPPLY < t.totalSupply + amount then .error .validationError
  else tokenUpdate t 0 toA amount

/-- Source `ERC20.transfer` via `GovernanceToken._update`. -/
def transferOp (t : TokenState) (sender toA : Account) (amount : Nat) :
    Except Err TokenState :=
  if toA = 0 then .error .tokenError
  else tokenUpdate t sender toA amount

/-- Source `GovernanceToken.burn`. -/
def burnOp (t : TokenState) (sender : Account) (amount : Nat) :
    Except Err TokenState :=
  if amount = 0 then .error .tokenError
  else if t.balance sender < amount then .error .tokenError
  else tokenUpdate t sender 0 amount

/-- Source `GovernanceToken.burnFrom`: positive amount, sufficient balance and
allowance, allowance decrease, then `_burn` = `_update(from, 0, amount)`. -/
def burnFromOp (t : TokenState) (spender fromA : Account) (amount : Nat) :
    Except Err TokenState :=
  if amount = 0 then .error .tokenError
  else if t.balance fromA < amount then .error .tokenError
  else if t.allowance fromA spender < amount then .error .tokenError
  else
    let t1 := { t with
      allowance := upd t.allowance fromA (upd (t.allowance fromA) spender
        (t.allowance fromA spender - amount)) }
    tokenUpdate t1 fromA 0 amount

/-! ## DAOGovernance

Translation of `contracts/DAOGovernance.sol`.  Each external function is a
state transition `GovState → args → Except Err GovState`; an `error` result
is a revert and leaves the caller's state untouched. -/

structure Proposal where
  id : Nat
  proposer : Account
  title : String
  ipfsHash : String
  startTime : Nat
  endTime : Nat
  totalVotes : Nat
  totalVoters : Nat
  executed : Bool
  cancelled : Bool
  votes : Account → Nat
  hasVoted : Account → Bool

/-- The all-zero mapping default for `mapping(uint256 => Proposal)`. -/
def defaultProposal : Proposal :=
  { id := 0, proposer := 0, title := "", ipfsHash := "", startTime := 0
    endTime := 0, totalVotes := 0, totalVoters := 0, executed := false
    cancelled := false, votes := fun _ => 0, hasVoted := fun _ => false }

structure VotingConfig where
  proposalThreshold : Nat
  votingDelay : Nat
  votingPeriod : Nat
  quorumThreshold : Nat
  maxVotesPerWallet : Nat
  proposalCooldown : Nat

/-- Constructor defaults of `DAOGovernance` (1 day = 86400 seconds). -/
def defaultVotingConfig : VotingConfig :=
  { proposalThreshold := 1000 * WEI, votingDelay := 86400
    votingPeriod := 7 * 86400, quorumThreshold := 100000 * WEI
    maxVotesPerWallet := 10000, proposalCooldown := 86400 }

structure GovState where
  self : Account
  owner : Account
  token : TokenState
  config : VotingConfig
  proposalCount : Nat
  proposals : Nat → Proposal
  lastProposalTime : Account → Nat
  delegatedTo : Account → Account
  delegatedVotes : Account → Nat
  treasuryBalance : Nat
  treasuryManagers : Account → Bool
  paused : Bool

/-- Post-constructor state of `DAOGovernance` (all mappings empty, default
voting configuration). -/
def initGov (selfA ownerA : Account) (t : TokenState) : GovState :=
  { self := selfA, owner := ownerA, token := t
    config := defaultVotingConfig, proposalCount := 0
    proposals := fun _ => defaultProposal, lastProposalTime := fun _ => 0
    delegatedTo := fun _ => 0, delegatedVotes := fun _ => 0
    treasuryBalance := 0, treasuryManagers := fun _ => false, paused := false }

namespace DAOGovernance

/-- Source `DAOGovernance.propose`. -/
def propose (s : GovState) (sender : Account) (now : Nat)
    (title ipfsHash : String) : Except Err GovState :=
  if s.paused then .error .stateError
  else if title.length = 0 then .error .validationError
  else if ipfsHash.length = 0 then .error .validationError
  else if getVotingPower s.token sender < s.config.proposalThreshold then
    .error .authorizationError
  else if now < s.lastProposalTime sender + s.config.proposalCooldown then
    .error .stateError
  else
    let pid := s.proposalCount + 1
    let p : Proposal := { defaultProposal with
      id := pid, proposer := sender, title := title, ipfsHash := ipfsHash
      startTime := now + s.config.votingDelay
      endTime := now + s.config.votingDelay + s.config.votingPeriod }
    .ok { s with
      proposalCount := pid
      proposals := upd s.proposals pid p
      lastProposalTime := upd s.lastProposalTime sender now }

/-- Source `DAOGovernance.vote`: guards in source order (`proposalExists`,
`votingActive`, `whenNotPaused`, argument range, has-voted flag, quadratic
cost with its wei scaling, power check), then the vote record and the
`burnFrom` debit; a reverting debit reverts the whole call. -/
def vote (s : GovState) (sender : Account) (now pid v : Nat) :
    Except Err GovState :=
  if ¬(0 < pid ∧ pid ≤ s.proposalCount) then .error .notFound
  else if now < (s.proposals pid).startTime then .error .stateError
  else if (s.proposals pid).endTime < now then .error .stateError
  else if (s.proposals pid).executed ∨ (s.proposals pid).cancelled then
    .error .stateError
  else if s.paused then .error .stateError
  else if v = 0 then .error .validationError
  else if s.config.maxVotesPerWallet < v then .error .validationError
  else if (s.proposals pid).hasVoted sender then .error .stateError
  else if UMAX < v * v then .error .overflowError
  else if UMAX < v * v * WEI then .error .overflowError
  else if UMAX < getVotingPower s.token sender + s.delegatedVotes sender then
    .error .overflowError
  else if getVotingPower s.token sender + s.delegatedVotes sender
      < v * v * WEI then .error .insufficientPower
  else
      match burnFromOp s.token s.self sender (v * v * WEI) with
      | .error e => .error e
      | .ok t' =>
        let p := s.proposals pid
        let p' : Proposal := { p with
          votes := upd p.votes sender v
          hasVoted := upd p.hasVoted sender true
          totalVotes := p.totalVotes + v
          totalVoters := p.totalVoters + 1 }
        .ok { s with token := t', proposals := upd s.proposals pid p' }

/-- Source `DAOGovernance.delegateVotes`: snapshot the sender's current token voting
power; if an outgoing delegation exists, first subtract that snapshot from
the old delegatee's tally, then record the new edge and add the snapshot to
the new delegatee. -/
def delegateVotes (s : GovState) (sender delegateeA : Account) :
    Except Err GovState :=
  if s.paused then .error .stateError
  else if delegateeA = 0 then .error .validationError
  else if delegateeA = sender then .error .validationError
  else
    let currentDelegate := s.delegatedTo sender
    let voterBalance := getVotingPower s.token sender
    if currentDelegate ≠ 0 then
      if s.delegatedVotes currentDelegate < voterBalance then
        .error .overflowError
      else
        let dv1 := upd s.delegatedVotes currentDelegate
          (s.delegatedVotes currentDelegate - voterBalance)
        .ok { s with
          delegatedTo := upd s.delegatedTo sender delegateeA
          delegatedVotes := upd dv1 delegateeA (dv1 delegateeA + voterBalance) }
    else
      .ok { s with
        delegatedTo := upd s.delegatedTo sender delegateeA
        delegatedVotes := upd s.delegatedVotes delegateeA
          (s.delegatedVotes delegateeA + voterBalance) }

/-- Source `DAOGovernance.revokeDelegation`. -/
def revokeDelegation (s : GovState) (sender : Account) :
    Except Err GovState :=
  if s.paused then .error .stateError
  else if s.delegatedTo sender = 0 then .error .notFound
  else
    let cur := s.delegatedTo sender
    let vb := getVotingPower s.token sender
    if s.delegatedVotes cur < vb then .error .overflowError
    else .ok { s with
      delegatedVotes := upd s.delegatedVotes cur (s.delegatedVotes cur - vb)
      delegatedTo := upd s.delegatedTo sender 0 }

/-- Source `DAOGovernance.executeProposal` (the finalize step): owner-only, only
after the voting window, only when neither executed nor cancelled, and only
when the quorum threshold is met. -/
def executeProposal (s : GovState) (sender : Account) (now pid : Nat) :
    Except Err GovState :=
  if ¬(0 < pid ∧ pid ≤ s.proposalCount) then .error .notFound
  else if sender ≠ s.owner then .error .authorizationError
  else if now ≤ (s.proposals pid).endTime then .error .stateError
  else if (s.proposals pid).executed then .error .stateError
  else if (s.proposals pid).cancelled then .error .stateError
  else if (s.proposals pid).totalVotes < s.config.quorumThreshold then
    .error .quorumNotMet
  else .ok { s with
    proposals := upd s.proposals pid { s.proposals pid with executed := true } }

/-- Source `DAOGovernance.cancelProposal`: proposer or owner, not yet executed or
cancelled. -/
def cancelProposal (s : GovState) (sender : Account) (pid : Nat) :
    Except Err GovState :=
  if ¬(0 < pid ∧ pid ≤ s.proposalCount) then .error .notFound
  else if ¬(sender = (s.proposals pid).proposer ∨ sender = s.owner) then
    .error .authorizationError
  else if (s.proposals pid).executed then .error .stateError
  else if (s.proposals pid).cancelled then .error .stateError
  else .ok { s with
    proposals := upd s.proposals pid
      { s.proposals pid with cancelled := true } }

/-- Source `DAOGovernance.addTreasuryManager`. -/
def addTreasuryManager (s : GovState) (sender m : Account) :
    Except Err GovState :=
  if sender ≠ s.owner then .error .authorizationError
  else if m = 0 then .error .validationError
  else .ok { s with treasuryManagers := upd s.treasuryManagers m true }

/-- Source `DAOGovernance.removeTreasuryManager`. -/
def removeTreasuryManager (s : GovState) (sender m : Account) :
    Except Err GovState :=
  if sender ≠ s.owner then .error .authorizationError
  else .ok { s with treasuryManagers := upd s.treasuryManagers m false }

/-- Source `DAOGovernance.depositToTreasury`. -/
def depositToTreasury (s : GovState) (value : Nat) : Except Err GovState :=
  if value = 0 then .error .validationError
  else .ok { s with treasuryBalance := s.treasuryBalance + value }

/-- Source `DAOGovernance.withdrawFromTreasury`; `xferOk` is the outcome of the
external `transfer`, which reverts the whole call when it fails. -/
def withdrawFromTreasury (s : GovState) (sender toA : Account) (amount : Nat)
    (xferOk : Bool) : Except Err GovState :=
  if ¬(s.treasuryManagers sender ∨ sender = s.owner) then
    .error .authorizationError
  else if toA = 0 then .error .validationError
  else if amount = 0 then .error .validationError
  else if s.treasuryBalance < amount then .error .insufficientFunds
  else if ¬xferOk then .error .transferFailed
  else .ok { s with treasuryBalance := s.treasuryBalance - amount }

/-- Source `DAOGovernance.updateVotingConfig` (owner-only, all six fields). -/
def updateVotingConfig (s : GovState) (sender : Account) (c : VotingConfig) :
    Except Err GovState :=
  if sender ≠ s.owner then .error .authorizationError
  else .ok { s with config := c }

/-- Source `DAOGovernance.pause`. -/
def pause (s : GovState) (sender : Account) : Except Err GovState :=
  if sender ≠ s.owner then .error .authorizationError
  else if s.paused then .error .stateError
  else .ok { s with paused := true }

/-- Source `DAOGovernance.unpause`. -/
def unpause (s : GovState) (sender : Account) : Except Err GovState :=
  if sender ≠ s.owner then .error .authorizationError
  else if ¬s.paused then .error .stateError
  else .ok { s with paused := false }

/-- Source `receive()`: any nonzero ETH deposit is added to the treasury balance. -/
def receiveEth (s : GovState) (value : Nat) : Except Err GovState :=
  .ok { s with treasuryBalance := s.treasuryBalance + value }

end DAOGovernance

/-- Power available to an account inside `DAOGovernance.vote` (line 196 of
the source): checkpointed token voting power plus governance-level delegated
votes. -/
def availableVotes (s : GovState) (a : Account) : Nat :=
  getVotingPower s.token a + s.delegatedVotes a

/-- One external call into the governance system (`DAOGovernance` or its
`GovernanceToken` collaborator), with the caller, the block timestamp where
the source reads it, and oracles for external transfer outcomes. -/
inductive GOp where
  | propose (sender : Account) (now : Nat) (title ipfsHash : String)
  | vote (sender : Account) (now pid v : Nat)
  | delegateVotes (sender delegateeA : Account)
  | revokeDelegation (sender : Account)
  | executeProposal (sender : Account) (now pid : Nat)
  | cancelProposal (sender : Account) (pid : Nat)
  | updateVotingConfig (sender : Account) (c : VotingConfig)
  | addTreasuryManager (sender m : Account)
  | removeTreasuryManager (sender m : Account)
  | depositToTreasury (sender : Account) (value : Nat)
  | withdrawFromTreasury (sender toA : Account) (amount : Nat) (xferOk : Bool)
  | pause (sender : Account)
  | unpause (sender : Account)
  | receiveEth (sender : Account) (value : Nat)
  | tokenApprove (sender spender : Account) (amount : Nat)
  | tokenDelegate (sender delegateeA : Account)
  | tokenTransfer (sender toA : Account) (amount : Nat)
  | tokenMint (sender toA : Account) (amount : Nat)
  | tokenBurn (sender : Account) (amount : Nat)
  | tokenBurnFrom (sender fromA : Account) (amount : Nat)

/-- Lift a token-level call result into the governance state. -/
def liftToken (s : GovState) (r : Except Err TokenState) :
    Except Err GovState :=
  match r with
  | .error e => .error e
  | .ok t => .ok { s with token := t }

/-- Dispatch one external call. -/
def execG (s : GovState) : GOp → Except Err GovState
  | .propose sender now title ipfsHash =>
    DAOGovernance.propose s sender now title ipfsHash
  | .vote sender now pid v => DAOGovernance.vote s sender now pid v
  | .delegateVotes sender d => DAOGovernance.delegateVotes s sender d
  | .revokeDelegation sender => DAOGovernance.revokeDelegation s sender
  | .executeProposal sender now pid =>
    DAOGovernance.executeProposal s sender now pid
  | .cancelProposal sender pid => DAOGovernance.cancelProposal s sender pid
  | .updateVotingConfig sender c =>
    DAOGovernance.updateVotingConfig s sender c
  | .addTreasuryManager sender m =>
    DAOGovernance.addTreasuryManager s sender m
  | .removeTreasuryManager sender m =>
    DAOGovernance.removeTreasuryManager s sender m
  | .depositToTreasury _ value => DAOGovernance.depositToTreasury s value
  | .withdrawFromTreasury sender toA amount xferOk =>
    DAOGovernance.withdrawFromTreasury s sender toA amount xferOk
  | .pause sender => DAOGovernance.pause s sender
  | .unpause sender => DAOGovernance.unpause s sender
  | .receiveEth _ value => DAOGovernance.receiveEth s value
  | .tokenApprove sender spender amount =>
    liftToken s (approveOp s.token sender spender amount)
  | .tokenDelegate sender d => .ok { s with token := tokenDelegateOp s.token sender d }
  | .tokenTransfer sender toA amount =>
    liftToken s (transferOp s.token sender toA amount)
  | .tokenMint sender toA amount =>
    liftToken s (mintOp s.token sender toA amount)
  | .tokenBurn sender amount => liftToken s (burnOp s.token sender amount)
  | .tokenBurnFrom sender fromA amount =>
    liftToken s (burnFromOp s.token sender fromA amount)

/-- Apply one call; a revert leaves the state unchanged. -/
def stepG (s : GovState) (op : GOp) : GovState :=
  match execG s op with
  | .ok s' => s'
  | .error _ => s

/-- Apply a sequence of calls. -/
def runG (s : GovState) (ops : List GOp) : GovState :=
  ops.foldl stepG s

/-! ## DAOTreasury

Translation of `contracts/DAOTreasury.sol`.  The treasury holds a reference
to the governance contract (field `gov`) and reads proposal state through
`getProposal`; `ethHeld` models the contract's actual ETH holdings
(`address(this).balance`), which the `TokenBalance` bookkeeping mirrors but
does not enforce. -/

structure TokenBalance where
  token : Account
  balance : Nat
  allocated : Nat
  available : Nat

/-- Zero value of the `tokenBalances` mapping. -/
def defaultTokenBalance : TokenBalance :=
  { token := 0, balance := 0, allocated := 0, available := 0 }

structure ProposalExecution where
  proposalId : Nat
  recipient : Account
  token : Account
  amount : Nat
  data : String
  executed : Bool
  executionTime : Nat

/-- Zero value of the `proposalExecutions` mapping. -/
def defaultExecution : ProposalExecution :=
  { proposalId := 0, recipient := 0, token := 0, amount := 0, data := ""
    executed := false, executionTime := 0 }

structure BudgetAllocation where
  category : String
  token : Account
  totalBudget : Nat
  spentAmount : Nat
  remainingBudget : Nat
  active : Bool

/-- Zero value of the `budgetAllocations` mapping. -/
def defaultBudget : BudgetAllocation :=
  { category := "", token := 0, totalBudget := 0, spentAmount := 0
    remainingBudget := 0, active := false }

structure TreasuryState where
  gov : GovState
  owner : Account
  tokenBalances : Account → TokenBalance
  supportedTokens : List Account
  proposalExecutions : Nat → ProposalExecution
  budgetAllocations : String → BudgetAllocation
  budgetCategories : List String
  treasuryManagers : Account → Bool
  emergencyManagers : Account → Bool
  totalProposalExecutions : Nat
  emergencyMode : Bool
  ethHeld : Nat

/-- Post-constructor state of `DAOTreasury`: ETH tracking initialised to
zeros, no managers, no executions, no budgets. -/
def initTreasury (g : GovState) (ownerA : Account) : TreasuryState :=
  { gov := g, owner := ownerA
    tokenBalances := upd (fun _ => defaultTokenBalance) 0 defaultTokenBalance
    supportedTokens := [0]
    proposalExecutions := fun _ => defaultExecution
    budgetAllocations := fun _ => defaultBudget
    budgetCategories := []
    treasuryManagers := fun _ => false
    emergencyManagers := fun _ => false
    totalProposalExecutions := 0
    emergencyMode := false
    ethHeld := 0 }

namespace DAOTreasury

/-- Source `onlyTreasuryManager` modifier condition. -/
def isManager (s : TreasuryState) (sender : Account) : Prop :=
  s.treasuryManagers sender ∨ sender = s.owner

instance (s : TreasuryState) (sender : Account) :
    Decidable (isManager s sender) := by
  unfold isManager
  infer_instance

/-- Source `onlyEmergencyManager` modifier condition. -/
def isEmergencyManager (s : TreasuryState) (sender : Account) : Prop :=
  s.emergencyManagers sender ∨ sender = s.owner

instance (s : TreasuryState) (sender : Account) :
    Decidable (isEmergencyManager s sender) := by
  unfold isEmergencyManager
  infer_instance

/-- Source `DAOTreasury.addSupportedToken`. -/
def addSupportedToken (s : TreasuryState) (sender token : Account) :
    Except Err TreasuryState :=
  if sender ≠ s.owner then .error .authorizationError
  else if token = 0 then .error .validationError
  else if (s.tokenBalances token).token ≠ 0 then .error .validationError
  else .ok { s with
    tokenBalances := upd s.tokenBalances token
      { token := token, balance := 0, allocated := 0, available := 0 }
    supportedTokens := s.supportedTokens ++ [token] }

/-- Source `DAOTreasury.depositETH`. -/
def depositETH (s : TreasuryState) (value : Nat) : Except Err TreasuryState :=
  if s.emergencyMode then .error .stateError
  else if value = 0 then .error .validationError
  else
    let tb := s.tokenBalances 0
    .ok { s with
      tokenBalances := upd s.tokenBalances 0
        { tb with
          balance := tb.balance + value
          available := tb.available + value }
      ethHeld := s.ethHeld + value }

/-- Source `DAOTreasury.depositToken`; `xferOk` is the outcome of the external
`safeTransferFrom`, which reverts the whole call when it fails. -/
def depositToken (s : TreasuryState) (token : Account) (amount : Nat)
    (xferOk : Bool) : Except Err TreasuryState :=
  if s.emergencyMode then .error .stateError
  else if token = 0 then .error .validationError
  else if amount = 0 then .error .validationError
  else if (s.tokenBalances token).token = 0 then .error .validationError
  else if ¬xferOk then .error .transferFailed
  else
    let tb := s.tokenBalances token
    .ok { s with
      tokenBalances := upd s.tokenBalances token
        { tb with
          balance := tb.balance + amount
          available := tb.available + amount } }

/-- Source `DAOTreasury.scheduleProposalExecution` (`onlyDAO`): moves `amount` from
`available` to `allocated` and records the execution under the next
sequential id. -/
def scheduleProposalExecution (s : TreasuryState) (sender : Account)
    (pid : Nat) (recipient token : Account) (amount : Nat) (data : String) :
    Except Err TreasuryState :=
  if sender ≠ s.gov.self then .error .authorizationError
  else if s.emergencyMode then .error .stateError
  else if recipient = 0 then .error .validationError
  else if amount = 0 then .error .validationError
  else if ¬((s.tokenBalances token).token ≠ 0 ∨ token = 0) then
    .error .validationError
  else
    let tb := s.tokenBalances token
    if tb.available < amount then .error .insufficientFunds
    else .ok { s with
      tokenBalances := upd s.tokenBalances token
        { tb with
          allocated := tb.allocated + amount
          available := tb.available - amount }
      totalProposalExecutions := s.totalProposalExecutions + 1
      proposalExecutions := upd s.proposalExecutions
        (s.totalProposalExecutions + 1)
        { proposalId := pid, recipient := recipient, token := token
          amount := amount, data := data, executed := false
          executionTime := 0 } }

/-- Source `DAOTreasury.executeProposal`: gated on the proposal being recorded as
executed in governance; marks the execution done and debits
`balance`/`allocated`, then attempts the transfer.  `success` is the observed
outcome of the external transfer (the low-level ETH `call`'s boolean, or the
balance-difference check after an ERC20 `safeTransfer`); on failure the
decrement and the flags are rolled back (compensating update), keeping the
execution retryable. -/
def executeProposal (s : TreasuryState) (sender : Account)
    (executionId now : Nat) (success : Bool) : Except Err TreasuryState :=
  if ¬isManager s sender then .error .authorizationError
  else if s.emergencyMode then .error .stateError
  else if ¬(0 < executionId ∧ executionId ≤ s.totalProposalExecutions) then
    .error .notFound
  else
    let ex := s.proposalExecutions executionId
    if ex.executed then .error .stateError
    else if ¬(0 < ex.proposalId ∧ ex.proposalId ≤ s.gov.proposalCount) then
      .error .notFound
    else if ¬(s.gov.proposals ex.proposalId).executed then .error .notApproved
    else
      let tb := s.tokenBalances ex.token
      if tb.balance < ex.amount then .error .overflowError
      else if tb.allocated < ex.amount then .error .overflowError
      else
        let exDone := { ex with executed := true, executionTime := now }
        let tbDebited := { tb with
          balance := tb.balance - ex.amount
          allocated := tb.allocated - ex.amount }
        if success then
          .ok { s with
            proposalExecutions := upd s.proposalExecutions executionId exDone
            tokenBalances := upd s.tokenBalances ex.token tbDebited
            ethHeld := if ex.token = 0 then s.ethHeld - ex.amount
              else s.ethHeld }
        else
          .ok { s with
            proposalExecutions := upd s.proposalExecutions executionId
              { exDone with executed := false, executionTime := 0 }
            tokenBalances := upd s.tokenBalances ex.token
              { tbDebited with
                balance := tbDebited.balance + ex.amount
                allocated := tbDebited.allocated + ex.amount } }

/-- Source `DAOTreasury.createBudgetAllocation`. -/
def createBudgetAllocation (s : TreasuryState) (sender : Account)
    (category : String) (token : Account) (amount : Nat) :
    Except Err TreasuryState :=
  if ¬isManager s sender then .error .authorizationError
  else if s.emergencyMode then .error .stateError
  else if category.length = 0 then .error .validationError
  else if amount = 0 then .error .validationError
  else if ¬((s.tokenBalances token).token ≠ 0 ∨ token = 0) then
    .error .validationError
  else if (s.budgetAllocations category).active then .error .validationError
  else
    let tb := s.tokenBalances token
    if tb.available < amount then .error .insufficientFunds
    else .ok { s with
      tokenBalances := upd s.tokenBalances token
        { tb with
          allocated := tb.allocated + amount
          available := tb.available - amount }
      budgetAllocations := upd s.budgetAllocations category
        { category := category, token := token, totalBudget := amount
          spentAmount := 0, remainingBudget := amount, active := true }
      budgetCategories := s.budgetCategories ++ [category] }

/-- Source `DAOTreasury.spendFromBudget`: a failed external transfer reverts the
whole call (`require(success)` on the ETH path, a reverting `safeTransfer`
on the ERC20 path). -/
def spendFromBudget (s : TreasuryState) (sender : Account) (category : String)
    (recipient : Account) (amount : Nat) (xferOk : Bool) :
    Except Err TreasuryState :=
  if ¬isManager s sender then .error .authorizationError
  else if s.emergencyMode then .error .stateError
  else if recipient = 0 then .error .validationError
  else if amount = 0 then .error .validationError
  else
    let budget := s.budgetAllocations category
    if ¬budget.active then .error .notFound
    else if budget.remainingBudget < amount then .error .insufficientFunds
    else
      let tb := s.tokenBalances budget.token
      if tb.balance < amount then .error .overflowError
      else if tb.allocated < amount then .error .overflowError
      else if ¬xferOk then .error .transferFailed
      else .ok { s with
        budgetAllocations := upd s.budgetAllocations category
          { budget with
            spentAmount := budget.spentAmount + amount
            remainingBudget := budget.remainingBudget - amount }
        tokenBalances := upd s.tokenBalances budget.token
          { tb with
            balance := tb.balance - amount
            allocated := tb.allocated - amount }
        ethHeld := if budget.token = 0 then s.ethHeld - amount
          else s.ethHeld }

/-- Source `DAOTreasury.addTreasuryManager`. -/
def addTreasuryManager (s : TreasuryState) (sender m : Account) :
    Except Err TreasuryState :=
  if sender ≠ s.owner then .error .authorizationError
  else if m = 0 then .error .validationError
  else .ok { s with treasuryManagers := upd s.treasuryManagers m true }

/-- Source `DAOTreasury.removeTreasuryManager`. -/
def removeTreasuryManager (s : TreasuryState) (sender m : Account) :
    Except Err TreasuryState :=
  if sender ≠ s.owner then .error .authorizationError
  else .ok { s with treasuryManagers := upd s.treasuryManagers m false }

/-- Source `DAOTreasury.addEmergencyManager`. -/
def addEmergencyManager (s : TreasuryState) (sender m : Account) :
    Except Err TreasuryState :=
  if sender ≠ s.owner then .error .authorizationError
  else if m = 0 then .error .validationError
  else .ok { s with emergencyManagers := upd s.emergencyManagers m true }

/-- Source `DAOTreasury.removeEmergencyManager`. -/
def removeEmergencyManager (s : TreasuryState) (sender m : Account) :
    Except Err TreasuryState :=
  if sender ≠ s.owner then .error .authorizationError
  else .ok { s with emergencyManagers := upd s.emergencyManagers m false }

/-- Source `DAOTreasury.toggleEmergencyMode`. -/
def toggleEmergencyMode (s : TreasuryState) (sender : Account) :
    Except Err TreasuryState :=
  if ¬isEmergencyManager s sender then .error .authorizationError
  else .ok { s with emergencyMode := ¬s.emergencyMode }

/-- Source `DAOTreasury.emergencyWithdraw`: emergency-mode only; transfers straight
out of the contract's holdings without touching the `TokenBalance`
bookkeeping. -/
def emergencyWithdraw (s : TreasuryState) (sender token toA : Account)
    (amount : Nat) (xferOk : Bool) : Except Err TreasuryState :=
  if ¬isEmergencyManager s sender then .error .authorizationError
  else if ¬s.emergencyMode then .error .stateError
  else if toA = 0 then .error .validationError
  else if amount = 0 then .error .validationError
  else if token = 0 then
    if s.ethHeld < amount then .error .insufficientFunds
    else if ¬xferOk then .error .transferFailed
    else .ok { s with ethHeld := s.ethHeld - amount }
  else if ¬xferOk then .error .transferFailed
  else .ok s

/-- Source `receive()` of the treasury. -/
def receiveEth (s : TreasuryState) (value : Nat) : Except Err TreasuryState :=
  if value = 0 then .error .validationError
  else if s.emergencyMode then .error .stateError
  else
    let tb := s.tokenBalances 0
    .ok { s with
      tokenBalances := upd s.tokenBalances 0
        { tb with
          balance := tb.balance + value
          available := tb.available + value }
      ethHeld := s.ethHeld + value }

end DAOTreasury

/-- One external call into the treasury (or into the governance system it
observes). -/
inductive TOp where
  | addSupportedToken (sender token : Account)
  | depositETH (sender : Account) (value : Nat)
  | depositToken (sender token : Account) (amount : Nat) (xferOk : Bool)
  | scheduleProposalExecution (sender : Account) (pid : Nat)
      (recipient token : Account) (amount : Nat) (data : String)
  | executeProposal (sender : Account) (executionId now : Nat)
      (success : Bool)
  | createBudgetAllocation (sender : Account) (category : String)
      (token : Account) (amount : Nat)
  | spendFromBudget (sender : Account) (category : String)
      (recipient : Account) (amount : Nat) (xferOk : Bool)
  | addTreasuryManager (sender m : Account)
  | removeTreasuryManager (sender m : Account)
  | addEmergencyManager (sender m : Account)
  | removeEmergencyManager (sender m : Account)
  | toggleEmergencyMode (sender : Account)
  | emergencyWithdraw (sender token toA : Account) (amount : Nat)
      (xferOk : Bool)
  | receiveEth (sender : Account) (value : Nat)
  | govCall (op : GOp)

/-- Dispatch one treasury-level call; `govCall` lets the governance system
(and its token) evolve between treasury operations. -/
def execT (s : TreasuryState) : TOp → Except Err TreasuryState
  | .addSupportedToken sender token =>
    DAOTreasury.addSupportedToken s sender token
  | .depositETH _ value => DAOTreasury.depositETH s value
  | .depositToken _ token amount xferOk =>
    DAOTreasury.depositToken s token amount xferOk
  | .scheduleProposalExecution sender pid recipient token amount data =>
    DAOTreasury.scheduleProposalExecution s sender pid recipient token amount
      data
  | .executeProposal sender executionId now success =>
    DAOTreasury.executeProposal s sender executionId now success
  | .createBudgetAllocation sender category token amount =>
    DAOTreasury.createBudgetAllocation s sender category token amount
  | .spendFromBudget sender category recipient amount xferOk =>
    DAOTreasury.spendFromBudget s sender category recipient amount xferOk
  | .addTreasuryManager sender m => DAOTreasury.addTreasuryManager s sender m
  | .removeTreasuryManager sender m =>
    DAOTreasury.removeTreasuryManager s sender m
  | .addEmergencyManager sender m =>
    DAOTreasury.addEmergencyManager s sender m
  | .removeEmergencyManager sender m =>
    DAOTreasury.removeEmergencyManager s sender m
  | .toggleEmergencyMode sender => DAOTreasury.toggleEmergencyMode s sender
  | .emergencyWithdraw sender token toA amount xferOk =>
    DAOTreasury.emergencyWithdraw s sender token toA amount xferOk
  | .receiveEth _ value => DAOTreasury.receiveEth s value
  | .govCall op => .ok { s with gov := stepG s.gov op }

/-- Apply one treasury call; a revert leaves the state unchanged. -/
def stepT (s : TreasuryState) (op : TOp) : TreasuryState :=
  match execT s op with
  | .ok s' => s'
  | .error _ => s

/-- Apply a sequence of treasury calls. -/
def runT (s : TreasuryState) (ops : List TOp) : TreasuryState :=
  ops.foldl stepT s

/-! ## Reachability infrastructure for the governance state -/

/-- How a single successful call may change one proposal record: votes and
the has-voted flag of an account that has already voted are untouched, the
`executed`/`cancelled` flags only ever go from `false` to `true`, and the
two flags are never set together. -/
def ProposalStep (old p' : Proposal) : Prop :=
  (∀ a, old.hasVoted a = true → p'.hasVoted a = true ∧ p'.votes a = old.votes a) ∧
  (old.executed = true → p'.executed = true) ∧
  (old.cancelled = true → p'.cancelled = true) ∧
  (¬(old.executed = true ∧ old.cancelled = true) →
    ¬(p'.executed = true ∧ p'.cancelled = true))

/-- Book-keeping invariant: ids beyond `proposalCount` are unallocated. -/
def InvG (s : GovState) : Prop :=
  ∀ pid, s.proposalCount < pid → s.proposals pid = defaultProposal

/-- Mutual-exclusion invariant: no proposal is both executed and cancelled. -/
def ExclG (s : GovState) : Prop :=
  ∀ pid, ¬((s.proposals pid).executed = true ∧
    (s.proposals pid).cancelled = true)

/-- An all-zero token state used as a concrete anchor for scenarios. -/
def tok0 : TokenState :=
  { balance := fun _ => 0, allowance := fun _ _ => 0
    delegatee := fun _ => 0, votes := fun _ => 0, totalSupply := 0
    minters := fun _ => false, owner := 9, paused := false }

/-- A plain open proposal (id 1, proposer 3, window [10, 100]). -/
def c9p : Proposal :=
  { defaultProposal with
    id := 1
    proposer := 3
    title := "t"
    ipfsHash := "h"
    startTime := 10
    endTime := 100 }

/-- Governance state holding the single proposal `c9p` (owner 9, contract
address 50). -/
def c9sA : GovState :=
  { initGov 50 9 tok0 with
    proposalCount := 1
    proposals := upd (fun _ => defaultProposal) 1 c9p }

/-- The state after proposer 3 cancels proposal 1 in `c9sA`. -/
def c9sB : GovState :=
  match DAOGovernance.cancelProposal c9sA 3 1 with
  | .ok s => s
  | .error _ => c9sA

/-- State for the quorum scenario: proposal 1 has 4 total votes, the quorum
threshold is 100000. -/
def c7s : GovState :=
  { initGov 50 9 tok0 with
    proposalCount := 1
    proposals := upd (fun _ => defaultProposal) 1
      { c9p with totalVotes := 4 }
    config := { defaultVotingConfig with quorumThreshold := 100000 } }

/-- Like `c7s` but with 100000 total votes, meeting the quorum. -/
def c7sBig : GovState :=
  { initGov 50 9 tok0 with
    proposalCount := 1
    proposals := upd (fun _ => defaultProposal) 1
      { c9p with totalVotes := 100000 }
    config := { defaultVotingConfig with quorumThreshold := 100000 } }

/-- State after the owner finalizes proposal 1 of `c7sBig` at time 101. -/
def c7sE : GovState :=
  match DAOGovernance.executeProposal c7sBig 9 101 1 with
  | .ok s => s
  | .error _ => c7sBig

/-- Proposal 1 with account 2 already recorded as having voted 1 vote. -/
def cex3p : Proposal :=
  { defaultProposal with
    id := 1
    proposer := 3
    title := "t"
    ipfsHash := "h"
    startTime := 10
    endTime := 100
    totalVotes := 1
    totalVoters := 1
    votes := upd (fun _ => 0) 2 1
    hasVoted := upd (fun _ => false) 2 true }

/-- Governance state in which account 2 has already voted on proposal 1 and
the voting window is still open. -/
def cex3s : GovState :=
  { initGov 50 9 tok0 with
    proposalCount := 1
    proposals := upd (fun _ => defaultProposal) 1 cex3p }

/-- Token state giving account 1 a checkpointed voting power of 5000 whole
tokens, with a matching balance, token-level self-delegation and an
allowance of 16 tokens towards the governance contract (address 50). -/
def tok1 : TokenState :=
  { balance := upd (fun _ => 0) 1 (5000 * WEI)
    allowance := upd (fun _ _ => 0) 1 (upd (fun _ => 0) 50 (16 * WEI))
    delegatee := upd (fun _ => 0) 1 1
    votes := upd (fun _ => 0) 1 (5000 * WEI)
    totalSupply := 5000 * WEI
    minters := fun _ => false
    owner := 9
    paused := false }

/-- Governance state with token `tok1` and the open proposal `c9p`. -/
def c1s0 : GovState :=
  { initGov 50 9 tok1 with
    proposalCount := 1
    proposals := upd (fun _ => defaultProposal) 1 c9p }

/-- Source `c1s0` after account 1 delegates its votes to account 2. -/
def c1s1 : GovState :=
  match DAOGovernance.delegateVotes c1s0 1 2 with
  | .ok s => s
  | .error _ => c1s0

/-- Source `c1s1` after account 1 — despite its outgoing delegation — casts 4
votes on proposal 1 at time 50. -/
def c1s2 : GovState :=
  match DAOGovernance.vote c1s1 1 50 1 4 with
  | .ok s => s
  | .error _ => c1s1

/-- Token state giving account 1 a voting power of 5 units. -/
def tok8 : TokenState :=
  { tok0 with votes := upd (fun _ => 0) 1 5 }

/-- Fresh governance state over `tok8`. -/
def c8s0 : GovState := initGov 50 9 tok8

/-- Source `c8s0` after account 1 delegates to account 2. -/
def c8s1 : GovState :=
  match DAOGovernance.delegateVotes c8s0 1 2 with
  | .ok s => s
  | .error _ => c8s0

/-- Source `c8s1` after account 1 revokes its delegation again. -/
def c8s2 : GovState :=
  match DAOGovernance.revokeDelegation c8s1 1 with
  | .ok s => s
  | .error _ => c8s1

/-- State after account 1 casts 4 votes on proposal 1 of `c1s0` directly
(without any delegation in between). -/
def c2sV : GovState :=
  match DAOGovernance.vote c1s0 1 50 1 4 with
  | .ok s => s
  | .error _ => c1s0

/-- The treasury bookkeeping invariant: for every asset,
`balance = allocated + available`. -/
def BalInv (s : TreasuryState) : Prop :=
  ∀ tok, (s.tokenBalances tok).balance =
    (s.tokenBalances tok).allocated + (s.tokenBalances tok).available

/-- Book-keeping invariant: execution ids beyond the counter are
unallocated. -/
def ExecInv (s : TreasuryState) : Prop :=
  ∀ i, s.totalProposalExecutions < i → s.proposalExecutions i
    = defaultExecution

/-- Success flag of a treasury call result. -/
def isOkT : Except Err TreasuryState → Bool
  | .ok _ => true
  | .error _ => false

/-- A treasury call performs the successful transfer of execution `e` when
it is an `executeProposal` on id `e` whose external transfer succeeded and
whose guards all passed. -/
def transfersFor (e : Nat) (s : TreasuryState) : TOp → Bool
  | .executeProposal sender executionId now success =>
    executionId == e && success &&
      isOkT (execT s (.executeProposal sender executionId now success))
  | _ => false

/-- Number of successful transfers for execution id `e` along a call
sequence. -/
def countTransfers (e : Nat) : TreasuryState → List TOp → Nat
  | _, [] => 0
  | s, op :: rest =>
    (if transfersFor e s op = true then 1 else 0) +
      countTransfers e (stepT s op) rest

/-- Treasury anchored to the governance state `c7sE` (whose proposal 1 is
recorded as executed), owned by account 9. -/
def c6t0 : TreasuryState := initTreasury c7sE 9

/-- Source `c6t0` after a 10-wei ETH deposit. -/
def c6t1 : TreasuryState :=
  match DAOTreasury.depositETH c6t0 10 with
  | .ok s => s
  | .error _ => c6t0

/-- Source `c6t1` after governance schedules execution 1: pay 5 wei of ETH to
account 4 for proposal 1. -/
def c6t2 : TreasuryState :=
  match DAOTreasury.scheduleProposalExecution c6t1 50 1 4 0 5 "" with
  | .ok s => s
  | .error _ => c6t1

/-- Source `c6t2` after the owner runs execution 1 and the external ETH transfer
fails. -/
def c6t3 : TreasuryState :=
  match DAOTreasury.executeProposal c6t2 9 1 60 false with
  | .ok s => s
  | .error _ => c6t2

theorem upd_same {α β : Type} [DecidableEq α] (f : α → β) (k : α) (v : β) :
    upd f k v k = v := by
  simp [upd]

theorem upd_other {α β : Type} [DecidableEq α] (f : α → β) (k : α) (v : β)
    (a : α) (h : a ≠ k) : upd f k v a = f a := by
  simp [upd, h]

/-- C4: for every `v` with `0 < v ≤ 2^128 - 1` (the defined maximum
representable vote count), `calculateQuadraticCost v` returns `v * v`;
`calculateQuadraticCost 0` fails with a validation error, and any `v` above
the maximum fails with a validation error. -/
theorem c4_quadraticCost_spec :
    (∀ v : Nat, 0 < v → v ≤ 2 ^ 128 - 1 →
      calculateQuadraticCost v = .ok (v * v)) ∧
    calculateQuadraticCost 0 = .error .validationError ∧
    (∀ v : Nat, 2 ^ 128 - 1 < v →
      calculateQuadraticCost v = .error .validationError) := by
  refine ⟨?_, ?_, ?_⟩
  · intro v hv hle
    unfold calculateQuadraticCost
    rw [if_neg (by omega), if_neg (by omega)]
  · rfl
  · intro v hv
    unfold calculateQuadraticCost
    rw [if_neg (by omega), if_pos hv]

/-- Witness for C4 at `v = 4`: the cost of 4 votes is 16. -/
theorem c4_quadraticCost_spec_witness :
    calculateQuadraticCost 4 = .ok 16 :=
  c4_quadraticCost_spec.1 4 (by decide) (by decide)

/-- C10: `validateVote` returns `(false, 0)` for `votes = 0` or
`votes > maxVotesPerWallet`; otherwise, for representable vote counts, it
returns the affordability flag `cost ≤ tokenBalance` together with
`cost = votes * votes`; and for in-range `votes` above `2^128 - 1` the call
fails with the overflow-guard validation error, so the error branch is
reachable from `validateVote`'s interface. -/
theorem c10_validateVote_spec :
    (∀ m b : Nat, validateVote 0 m b = .ok (false, 0)) ∧
    (∀ v m b : Nat, m < v → validateVote v m b = .ok (false, 0)) ∧
    (∀ v m b : Nat, 0 < v → v ≤ m → v ≤ 2 ^ 128 - 1 →
      validateVote v m b = .ok (decide (v * v ≤ b), v * v)) ∧
    (∀ v m b : Nat, 0 < v → v ≤ m → 2 ^ 128 - 1 < v →
      validateVote v m b = .error .validationError) := by
  refine ⟨?_, ?_, ?_, ?_⟩
  · intro m b; rfl
  · intro v m b hmv
    unfold validateVote
    rw [if_neg (by omega), if_pos hmv]
  · intro v m b hv hvm hrep
    unfold validateVote
    rw [if_neg (by omega), if_neg (by omega),
      c4_quadraticCost_spec.1 v hv hrep]
  · intro v m b hv hvm hbig
    unfold validateVote
    rw [if_neg (by omega), if_neg (by omega), c4_quadraticCost_spec.2.2 v hbig]

/-- Witness for C10: a valid 4-vote ballot against a cap of 10 and a balance
of 20 is valid with cost 16, and a vote count above `2^128 - 1` under a huge
cap reverts. -/
theorem c10_validateVote_spec_witness :
    validateVote 4 10 20 = .ok (true, 16) ∧
    validateVote (2 ^ 128) (2 ^ 129) 5 = .error .validationError := by
  constructor
  · have h := c10_validateVote_spec.2.2.1 4 10 20 (by decide) (by decide)
      (by decide)
    simpa using h
  · exact c10_validateVote_spec.2.2.2 (2 ^ 128) (2 ^ 129) 5 (by norm_num)
      (by norm_num) (by norm_num)

/-- Any successful governance call either leaves the proposal table alone,
appends a fresh proposal at the next id, or modifies a single existing
proposal according to `ProposalStep`. -/
theorem execG_shape (s : GovState) (op : GOp) (s' : GovState)
    (h : execG s op = .ok s') :
    (s'.proposalCount = s.proposalCount ∧ s'.proposals = s.proposals) ∨
    (s'.proposalCount = s.proposalCount + 1 ∧
      ∃ p : Proposal, s'.proposals = upd s.proposals (s.proposalCount + 1) p ∧
        p.executed = false ∧ p.cancelled = false ∧ ∀ a, p.hasVoted a = false) ∨
    (s'.proposalCount = s.proposalCount ∧
      ∃ pid, 0 < pid ∧ pid ≤ s.proposalCount ∧
        (∀ q, q ≠ pid → s'.proposals q = s.proposals q) ∧
        ProposalStep (s.proposals pid) (s'.proposals pid)) := by
  cases op with
  | propose sender now title ipfsHash =>
    simp only [execG, DAOGovernance.propose] at h
    split_ifs at h <;> try exact Except.noConfusion h
    simp only [Except.ok.injEq] at h
    subst h
    exact Or.inr (Or.inl ⟨rfl, _, rfl, rfl, rfl, fun _ => rfl⟩)
  | vote sender now pid v =>
    replace h : DAOGovernance.vote s sender now pid v = .ok s' := h
    unfold DAOGovernance.vote at h
    by_cases h1 : ¬(0 < pid ∧ pid ≤ s.proposalCount)
    · rw [if_pos h1] at h; exact Except.noConfusion h
    rw [if_neg h1] at h
    by_cases h2 : now < (s.proposals pid).startTime
    · rw [if_pos h2] at h; exact Except.noConfusion h
    rw [if_neg h2] at h
    by_cases h3 : (s.proposals pid).endTime < now
    · rw [if_pos h3] at h; exact Except.noConfusion h
    rw [if_neg h3] at h
    by_cases h4 : (s.proposals pid).executed = true ∨ (s.proposals pid).cancelled = true
    · rw [if_pos h4] at h; exact Except.noConfusion h
    rw [if_neg h4] at h
    by_cases h5 : s.paused = true
    · rw [if_pos h5] at h; exact Except.noConfusion h
    rw [if_neg h5] at h
    by_cases h6 : v = 0
    · rw [if_pos h6] at h; exact Except.noConfusion h
    rw [if_neg h6] at h
    by_cases h7 : s.config.maxVotesPerWallet < v
    · rw [if_pos h7] at h; exact Except.noConfusion h
    rw [if_neg h7] at h
    by_cases h8 : (s.proposals pid).hasVoted sender = true
    · rw [if_pos h8] at h; exact Except.noConfusion h
    rw [if_neg h8] at h
    by_cases h9 : UMAX < v * v
    · rw [if_pos h9] at h; exact Except.noConfusion h
    rw [if_neg h9] at h
    by_cases h10 : UMAX < v * v * WEI
    · rw [if_pos h10] at h; exact Except.noConfusion h
    rw [if_neg h10] at h
    by_cases h11 : UMAX < getVotingPower s.token sender + s.delegatedVotes sender
    · rw [if_pos h11] at h; exact Except.noConfusion h
    rw [if_neg h11] at h
    by_cases h12 : getVotingPower s.token sender + s.delegatedVotes sender < v * v * WEI
    · rw [if_pos h12] at h; exact Except.noConfusion h
    rw [if_neg h12] at h
    cases hb : burnFromOp s.token s.self sender (v * v * WEI) with
    | error e => rw [hb] at h; exact Except.noConfusion h
    | ok t' =>
      rw [hb] at h
      have hinj := Except.ok.inj h
      subst hinj
      obtain ⟨hp1, hp2⟩ := not_not.mp h1
      refine Or.inr (Or.inr ⟨rfl, pid, hp1, hp2, ?_, ?_⟩)
      · intro q hq
        exact upd_other _ _ _ _ hq
      · simp only [upd_same]
        refine ⟨?_, fun hx => hx, fun hx => hx, fun hx => hx⟩
        intro a ha
        have hne : a ≠ sender := fun hh => h8 (hh ▸ ha)
        constructor
        · show upd (s.proposals pid).hasVoted sender true a = true
          rw [upd_other _ _ _ _ hne]
          exact ha
        · show upd (s.proposals pid).votes sender v a = (s.proposals pid).votes a
          rw [upd_other _ _ _ _ hne]
  | delegateVotes sender d =>
    simp only [execG, DAOGovernance.delegateVotes] at h
    split_ifs at h <;> try exact Except.noConfusion h
    all_goals simp only [Except.ok.injEq] at h
    all_goals subst h
    all_goals exact Or.inl ⟨rfl, rfl⟩
  | revokeDelegation sender =>
    simp only [execG, DAOGovernance.revokeDelegation] at h
    split_ifs at h <;> try exact Except.noConfusion h
    simp only [Except.ok.injEq] at h
    subst h
    exact Or.inl ⟨rfl, rfl⟩
  | executeProposal sender now pid =>
    simp only [execG, DAOGovernance.executeProposal] at h
    split at h; · exact Except.noConfusion h
    rename_i h1
    split at h; · exact Except.noConfusion h
    split at h; · exact Except.noConfusion h
    split at h; · exact Except.noConfusion h
    split at h
    · exact Except.noConfusion h
    rename_i h5
    split at h
    · exact Except.noConfusion h
    simp only [Except.ok.injEq] at h
    subst h
    obtain ⟨hp1, hp2⟩ := not_not.mp h1
    refine Or.inr (Or.inr ⟨rfl, pid, hp1, hp2, ?_, ?_⟩)
    · intro q hq
      exact upd_other _ _ _ _ hq
    · simp only [upd_same]
      refine ⟨fun a ha => ⟨ha, rfl⟩, fun _ => rfl, fun hx => hx, ?_⟩
      intro _ hboth
      exact h5 hboth.2
  | cancelProposal sender pid =>
    simp only [execG, DAOGovernance.cancelProposal] at h
    split at h; · exact Except.noConfusion h
    rename_i h1
    split at h; · exact Except.noConfusion h
    split at h
    · exact Except.noConfusion h
    rename_i h3
    split at h
    · exact Except.noConfusion h
    simp only [Except.ok.injEq] at h
    subst h
    obtain ⟨hp1, hp2⟩ := not_not.mp h1
    refine Or.inr (Or.inr ⟨rfl, pid, hp1, hp2, ?_, ?_⟩)
    · intro q hq
      exact upd_other _ _ _ _ hq
    · simp only [upd_same]
      refine ⟨fun a ha => ⟨ha, rfl⟩, fun hx => hx, fun _ => rfl, ?_⟩
      intro _ hboth
      exact h3 hboth.1
  | updateVotingConfig sender c =>
    simp only [execG, DAOGovernance.updateVotingConfig] at h
    split_ifs at h <;> try exact Except.noConfusion h
    simp only [Except.ok.injEq] at h
    subst h
    exact Or.inl ⟨rfl, rfl⟩
  | addTreasuryManager sender m =>
    simp only [execG, DAOGovernance.addTreasuryManager] at h
    split_ifs at h <;> try exact Except.noConfusion h
    simp only [Except.ok.injEq] at h
    subst h
    exact Or.inl ⟨rfl, rfl⟩
  | removeTreasuryManager sender m =>
    simp only [execG, DAOGovernance.removeTreasuryManager] at h
    split_ifs at h <;> try exact Except.noConfusion h
    simp only [Except.ok.injEq] at h
    subst h
    exact Or.inl ⟨rfl, rfl⟩
  | depositToTreasury sender value =>
    simp only [execG, DAOGovernance.depositToTreasury] at h
    split_ifs at h <;> try exact Except.noConfusion h
    simp only [Except.ok.injEq] at h
    subst h
    exact Or.inl ⟨rfl, rfl⟩
  | withdrawFromTreasury sender toA amount xferOk =>
    simp only [execG, DAOGovernance.withdrawFromTreasury] at h
    split_ifs at h <;> try exact Except.noConfusion h
    simp only [Except.ok.injEq] at h
    subst h
    exact Or.inl ⟨rfl, rfl⟩
  | pause sender =>
    simp only [execG, DAOGovernance.pause] at h
    split_ifs at h <;> try exact Except.noConfusion h
    simp only [Except.ok.injEq] at h
    subst h
    exact Or.inl ⟨rfl, rfl⟩
  | unpause sender =>
    simp only [execG, DAOGovernance.unpause] at h
    split_ifs at h <;> try exact Except.noConfusion h
    simp only [Except.ok.injEq] at h
    subst h
    exact Or.inl ⟨rfl, rfl⟩
  | receiveEth sender value =>
    simp only [execG, DAOGovernance.receiveEth, Except.ok.injEq] at h
    subst h
    exact Or.inl ⟨rfl, rfl⟩
  | tokenApprove sender spender amount =>
    simp only [execG, liftToken] at h
    split at h
    · exact Except.noConfusion h
    · simp only [Except.ok.injEq] at h
      subst h
      exact Or.inl ⟨rfl, rfl⟩
  | tokenDelegate sender d =>
    simp only [execG, Except.ok.injEq] at h
    subst h
    exact Or.inl ⟨rfl, rfl⟩
  | tokenTransfer sender toA amount =>
    simp only [execG, liftToken] at h
    split at h
    · exact Except.noConfusion h
    · simp only [Except.ok.injEq] at h
      subst h
      exact Or.inl ⟨rfl, rfl⟩
  | tokenMint sender toA amount =>
    simp only [execG, liftToken] at h
    split at h
    · exact Except.noConfusion h
    · simp only [Except.ok.injEq] at h
      subst h
      exact Or.inl ⟨rfl, rfl⟩
  | tokenBurn sender amount =>
    simp only [execG, liftToken] at h
    split at h
    · exact Except.noConfusion h
    · simp only [Except.ok.injEq] at h
      subst h
      exact Or.inl ⟨rfl, rfl⟩
  | tokenBurnFrom sender fromA amount =>
    simp only [execG, liftToken] at h
    split at h
    · exact Except.noConfusion h
    · simp only [Except.ok.injEq] at h
      subst h
      exact Or.inl ⟨rfl, rfl⟩

/-- Characterization of `stepG` on a successful call. -/
theorem stepG_eq_of_ok {s s' : GovState} {op : GOp}
    (h : execG s op = .ok s') : stepG s op = s' := by
  unfold stepG
  rw [h]

/-- Characterization of `stepG` on a reverting call. -/
theorem stepG_eq_of_error {s : GovState} {op : GOp} {e : Err}
    (h : execG s op = .error e) : stepG s op = s := by
  unfold stepG
  rw [h]

theorem invG_init (selfA ownerA : Account) (t : TokenState) :
    InvG (initGov selfA ownerA t) :=
  fun _ _ => rfl

theorem invG_step (s : GovState) (op : GOp) (hI : InvG s) :
    InvG (stepG s op) := by
  cases hE : execG s op with
  | error e =>
    rw [stepG_eq_of_error hE]
    exact hI
  | ok s' =>
    rw [stepG_eq_of_ok hE]
    rcases execG_shape s op s' hE with ⟨hc, hp⟩ | ⟨hc, p, hp, _, _, _⟩ |
      ⟨hc, pid, hp1, hp2, hq, _⟩
    · intro q hgt
      rw [hp]
      exact hI q (by omega)
    · intro q hgt
      rw [hp, upd_other _ _ _ _ (by omega : q ≠ s.proposalCount + 1)]
      exact hI q (by omega)
    · intro q hgt
      rw [hq q (by omega)]
      exact hI q (by omega)

theorem exclG_init (selfA ownerA : Account) (t : TokenState) :
    ExclG (initGov selfA ownerA t) :=
  fun _ h => Bool.noConfusion h.1

theorem exclG_step (s : GovState) (op : GOp) (hI : InvG s) (hX : ExclG s) :
    ExclG (stepG s op) := by
  cases hE : execG s op with
  | error e =>
    rw [stepG_eq_of_error hE]
    exact hX
  | ok s' =>
    rw [stepG_eq_of_ok hE]
    rcases execG_shape s op s' hE with ⟨hc, hp⟩ | ⟨hc, p, hp, hex, hca, _⟩ |
      ⟨hc, pid, hp1, hp2, hq, hPS⟩
    · intro q
      rw [hp]
      exact hX q
    · intro q
      by_cases hqe : q = s.proposalCount + 1
      · subst hqe
        rw [hp, upd_same]
        intro hboth
        rw [hex] at hboth
        exact absurd hboth.1 (by decide)
      · rw [hp, upd_other _ _ _ _ hqe]
        exact hX q
    · intro q
      by_cases hqe : q = pid
      · subst hqe
        exact hPS.2.2.2 (hX q)
      · rw [hq q hqe]
        exact hX q

/-- The `executed` and `cancelled` flags are monotone under every call. -/
theorem flagsMono_step (s : GovState) (op : GOp) (hI : InvG s) (pid : Nat) :
    ((s.proposals pid).executed = true →
      ((stepG s op).proposals pid).executed = true) ∧
    ((s.proposals pid).cancelled = true →
      ((stepG s op).proposals pid).cancelled = true) := by
  cases hE : execG s op with
  | error e =>
    rw [stepG_eq_of_error hE]
    exact ⟨id, id⟩
  | ok s' =>
    rw [stepG_eq_of_ok hE]
    rcases execG_shape s op s' hE with ⟨hc, hp⟩ | ⟨hc, p, hp, _, _, _⟩ |
      ⟨hc, pid', hp1, hp2, hq, hPS⟩
    · rw [hp]
      exact ⟨id, id⟩
    · by_cases hqe : pid = s.proposalCount + 1
      · constructor <;> intro hx
        · rw [hI pid (by omega)] at hx
          exact Bool.noConfusion hx
        · rw [hI pid (by omega)] at hx
          exact Bool.noConfusion hx
      · rw [hp, upd_other _ _ _ _ hqe]
        exact ⟨id, id⟩
    · by_cases hqe : pid = pid'
      · subst hqe
        exact ⟨hPS.2.1, hPS.2.2.1⟩
      · rw [hq pid hqe]
        exact ⟨id, id⟩

/-- A recorded vote (has-voted flag and per-account amount) is never changed
by any later call. -/
theorem votedStable_step (s : GovState) (op : GOp) (hI : InvG s) (pid : Nat)
    (a : Account) (hv : (s.proposals pid).hasVoted a = true) :
    ((stepG s op).proposals pid).hasVoted a = true ∧
    ((stepG s op).proposals pid).votes a = (s.proposals pid).votes a := by
  cases hE : execG s op with
  | error e =>
    rw [stepG_eq_of_error hE]
    exact ⟨hv, rfl⟩
  | ok s' =>
    rw [stepG_eq_of_ok hE]
    rcases execG_shape s op s' hE with ⟨hc, hp⟩ | ⟨hc, p, hp, _, _, hhv⟩ |
      ⟨hc, pid', hp1, hp2, hq, hPS⟩
    · rw [hp]
      exact ⟨hv, rfl⟩
    · by_cases hqe : pid = s.proposalCount + 1
      · rw [hI pid (by omega)] at hv
        exact absurd hv (by simp [defaultProposal])
      · rw [hp, upd_other _ _ _ _ hqe]
        exact ⟨hv, rfl⟩
    · by_cases hqe : pid = pid'
      · subst hqe
        exact hPS.1 a hv
      · rw [hq pid hqe]
        exact ⟨hv, rfl⟩

theorem invG_run (s : GovState) (ops : List GOp) (hI : InvG s) :
    InvG (runG s ops) := by
  induction ops generalizing s with
  | nil => exact hI
  | cons op rest ih => exact ih (stepG s op) (invG_step s op hI)

theorem exclG_run (s : GovState) (ops : List GOp) (hI : InvG s)
    (hX : ExclG s) : ExclG (runG s ops) := by
  induction ops generalizing s with
  | nil => exact hX
  | cons op rest ih =>
    exact ih (stepG s op) (invG_step s op hI) (exclG_step s op hI hX)

theorem flagsMono_run (s : GovState) (ops : List GOp) (hI : InvG s)
    (pid : Nat) :
    ((s.proposals pid).executed = true →
      ((runG s ops).proposals pid).executed = true) ∧
    ((s.proposals pid).cancelled = true →
      ((runG s ops).proposals pid).cancelled = true) := by
  induction ops generalizing s with
  | nil => exact ⟨id, id⟩
  | cons op rest ih =>
    have h1 := flagsMono_step s op hI pid
    have h2 := ih (stepG s op) (invG_step s op hI)
    exact ⟨fun hx => h2.1 (h1.1 hx), fun hx => h2.2 (h1.2 hx)⟩

theorem votedStable_run (s : GovState) (ops : List GOp) (hI : InvG s)
    (pid : Nat) (a : Account) (hv : (s.proposals pid).hasVoted a = true) :
    ((runG s ops).proposals pid).hasVoted a = true ∧
    ((runG s ops).proposals pid).votes a = (s.proposals pid).votes a := by
  induction ops generalizing s with
  | nil => exact ⟨hv, rfl⟩
  | cons op rest ih =>
    have h1 := votedStable_step s op hI pid a hv
    have h2 := ih (stepG s op) (invG_step s op hI) h1.1
    exact ⟨h2.1, h2.2.trans h1.2⟩

/-- Inversion of a successful `burnFrom`: positive amount, sufficient balance
and allowance, token not paused, and the balance debited by exactly the
amount. -/
theorem burnFromOp_ok_inv (t : TokenState) (spender fromA : Account)
    (amt : Nat) (t' : TokenState) (hf : fromA ≠ 0)
    (h : burnFromOp t spender fromA amt = .ok t') :
    0 < amt ∧ amt ≤ t.balance fromA ∧ amt ≤ t.allowance fromA spender ∧
    t.paused = false ∧ t'.balance fromA = t.balance fromA - amt := by
  unfold burnFromOp at h
  by_cases h1 : amt = 0
  · rw [if_pos h1] at h
    exact Except.noConfusion h
  rw [if_neg h1] at h
  by_cases h2 : t.balance fromA < amt
  · rw [if_pos h2] at h
    exact Except.noConfusion h
  rw [if_neg h2] at h
  by_cases h3 : t.allowance fromA spender < amt
  · rw [if_pos h3] at h
    exact Except.noConfusion h
  rw [if_neg h3] at h
  unfold tokenUpdate at h
  simp only [] at h
  by_cases h4 : t.paused = true
  · rw [if_pos h4] at h
    exact Except.noConfusion h
  rw [if_neg h4] at h
  by_cases h5 : fromA ≠ 0 ∧ t.balance fromA < amt
  · rw [if_pos h5] at h
    exact Except.noConfusion h
  rw [if_neg h5] at h
  have hinj := Except.ok.inj h
  subst hinj
  refine ⟨by omega, by omega, by omega, by simpa using h4, ?_⟩
  simp [hf, upd_same]

/-- Source `burnFrom` can only revert with the token's own error. -/
theorem burnFromOp_error_inv (t : TokenState) (spender fromA : Account)
    (amt : Nat) (e : Err) (h : burnFromOp t spender fromA amt = .error e) :
    e = .tokenError := by
  unfold burnFromOp tokenUpdate at h
  simp only [] at h
  split_ifs at h <;> first
    | exact (Except.error.inj h).symm
    | exact Except.noConfusion h

/-- Full inversion of a successful `DAOGovernance.vote` call: all guards
held, the vote was recorded, the tallies were bumped, and (for a real,
nonzero caller) the voter's token balance was debited by exactly
`v * v * 10^18`. -/
theorem vote_ok_inv (s : GovState) (sender : Account) (now pid v : Nat)
    (s' : GovState) (h : DAOGovernance.vote s sender now pid v = .ok s') :
    (0 < pid ∧ pid ≤ s.proposalCount) ∧
    (s.proposals pid).startTime ≤ now ∧ now ≤ (s.proposals pid).endTime ∧
    (s.proposals pid).executed = false ∧
    (s.proposals pid).cancelled = false ∧
    s.paused = false ∧ 0 < v ∧ v ≤ s.config.maxVotesPerWallet ∧
    (s.proposals pid).hasVoted sender = false ∧
    v * v * WEI ≤ availableVotes s sender ∧
    (s'.proposals pid).hasVoted sender = true ∧
    (s'.proposals pid).votes sender = v ∧
    (s'.proposals pid).totalVotes = (s.proposals pid).totalVotes + v ∧
    (s'.proposals pid).totalVoters = (s.proposals pid).totalVoters + 1 ∧
    (sender ≠ 0 →
      s'.token.balance sender = s.token.balance sender - v * v * WEI ∧
      v * v * WEI ≤ s.token.balance sender) := by
  unfold DAOGovernance.vote at h
  by_cases h1 : ¬(0 < pid ∧ pid ≤ s.proposalCount)
  · rw [if_pos h1] at h
    exact Except.noConfusion h
  rw [if_neg h1] at h
  by_cases h2 : now < (s.proposals pid).startTime
  · rw [if_pos h2] at h
    exact Except.noConfusion h
  rw [if_neg h2] at h
  by_cases h3 : (s.proposals pid).endTime < now
  · rw [if_pos h3] at h
    exact Except.noConfusion h
  rw [if_neg h3] at h
  by_cases h4 : (s.proposals pid).executed = true ∨
      (s.proposals pid).cancelled = true
  · rw [if_pos h4] at h
    exact Except.noConfusion h
  rw [if_neg h4] at h
  by_cases h5 : s.paused = true
  · rw [if_pos h5] at h
    exact Except.noConfusion h
  rw [if_neg h5] at h
  by_cases h6 : v = 0
  · rw [if_pos h6] at h
    exact Except.noConfusion h
  rw [if_neg h6] at h
  by_cases h7 : s.config.maxVotesPerWallet < v
  · rw [if_pos h7] at h
    exact Except.noConfusion h
  rw [if_neg h7] at h
  by_cases h8 : (s.proposals pid).hasVoted sender = true
  · rw [if_pos h8] at h
    exact Except.noConfusion h
  rw [if_neg h8] at h
  by_cases h9 : UMAX < v * v
  · rw [if_pos h9] at h
    exact Except.noConfusion h
  rw [if_neg h9] at h
  by_cases h10 : UMAX < v * v * WEI
  · rw [if_pos h10] at h
    exact Except.noConfusion h
  rw [if_neg h10] at h
  by_cases h11 : UMAX < getVotingPower s.token sender + s.delegatedVotes sender
  · rw [if_pos h11] at h
    exact Except.noConfusion h
  rw [if_neg h11] at h
  by_cases h12 : getVotingPower s.token sender + s.delegatedVotes sender
      < v * v * WEI
  · rw [if_pos h12] at h
    exact Except.noConfusion h
  rw [if_neg h12] at h
  cases hb : burnFromOp s.token s.self sender (v * v * WEI) with
  | error e =>
    rw [hb] at h
    exact Except.noConfusion h
  | ok t' =>
    rw [hb] at h
    have hinj := Except.ok.inj h
    subst hinj
    obtain ⟨hpa, hpb⟩ := not_not.mp h1
    have h4' := not_or.mp h4
    refine ⟨⟨hpa, hpb⟩, by omega, by omega, by simpa using h4'.1,
      by simpa using h4'.2, by simpa using h5, by omega, by omega,
      by simpa using h8, ?_, ?_, ?_, ?_, ?_, ?_⟩
    · unfold availableVotes getVotingPower
      unfold getVotingPower at h12
      omega
    · simp [upd_same]
    · simp [upd_same]
    · simp [upd_same]
    · simp [upd_same]
    · intro hs0
      have hbi := burnFromOp_ok_inv s.token s.self sender (v * v * WEI) t'
        hs0 hb
      exact ⟨hbi.2.2.2.2, hbi.2.1⟩

/-- After an account has the has-voted flag set on a proposal, every further
`vote` call by that account on that proposal reverts (with guard-dependent
error). -/
theorem vote_voted_fails (s : GovState) (sender : Account) (now pid v : Nat)
    (hv : (s.proposals pid).hasVoted sender = true) :
    ∃ e, DAOGovernance.vote s sender now pid v = .error e := by
  by_cases h1 : ¬(0 < pid ∧ pid ≤ s.proposalCount)
  · exact ⟨.notFound, by unfold DAOGovernance.vote; rw [if_pos h1]⟩
  by_cases h2 : now < (s.proposals pid).startTime
  · exact ⟨.stateError, by
      unfold DAOGovernance.vote; rw [if_neg h1, if_pos h2]⟩
  by_cases h3 : (s.proposals pid).endTime < now
  · exact ⟨.stateError, by
      unfold DAOGovernance.vote; rw [if_neg h1, if_neg h2, if_pos h3]⟩
  by_cases h4 : (s.proposals pid).executed = true ∨
      (s.proposals pid).cancelled = true
  · exact ⟨.stateError, by
      unfold DAOGovernance.vote
      rw [if_neg h1, if_neg h2, if_neg h3, if_pos h4]⟩
  by_cases h5 : s.paused = true
  · exact ⟨.stateError, by
      unfold DAOGovernance.vote
      rw [if_neg h1, if_neg h2, if_neg h3, if_neg h4, if_pos h5]⟩
  by_cases h6 : v = 0
  · exact ⟨.validationError, by
      unfold DAOGovernance.vote
      rw [if_neg h1, if_neg h2, if_neg h3, if_neg h4, if_neg h5, if_pos h6]⟩
  by_cases h7 : s.config.maxVotesPerWallet < v
  · exact ⟨.validationError, by
      unfold DAOGovernance.vote
      rw [if_neg h1, if_neg h2, if_neg h3, if_neg h4, if_neg h5, if_neg h6,
        if_pos h7]⟩
  exact ⟨.stateError, by
    unfold DAOGovernance.vote
    rw [if_neg h1, if_neg h2, if_neg h3, if_neg h4, if_neg h5, if_neg h6,
      if_neg h7, if_pos hv]⟩

/-- Guard inversion of a successful `cancelProposal`. -/
theorem cancelProposal_ok_inv (s : GovState) (sender : Account) (pid : Nat)
    (s' : GovState) (h : DAOGovernance.cancelProposal s sender pid = .ok s') :
    (s.proposals pid).executed = false ∧
    (s.proposals pid).cancelled = false ∧
    (sender = (s.proposals pid).proposer ∨ sender = s.owner) := by
  unfold DAOGovernance.cancelProposal at h
  by_cases h1 : ¬(0 < pid ∧ pid ≤ s.proposalCount)
  · rw [if_pos h1] at h
    exact Except.noConfusion h
  rw [if_neg h1] at h
  by_cases h2 : ¬(sender = (s.proposals pid).proposer ∨ sender = s.owner)
  · rw [if_pos h2] at h
    exact Except.noConfusion h
  rw [if_neg h2] at h
  by_cases h3 : (s.proposals pid).executed = true
  · rw [if_pos h3] at h
    exact Except.noConfusion h
  rw [if_neg h3] at h
  by_cases h4 : (s.proposals pid).cancelled = true
  · rw [if_pos h4] at h
    exact Except.noConfusion h
  exact ⟨by simpa using h3, by simpa using h4, not_not.mp h2⟩

/-- Guard inversion of a successful governance `executeProposal`. -/
theorem executeProposalG_ok_inv (s : GovState) (sender : Account)
    (now pid : Nat) (s' : GovState)
    (h : DAOGovernance.executeProposal s sender now pid = .ok s') :
    (s.proposals pid).executed = false ∧
    (s.proposals pid).cancelled = false ∧ sender = s.owner ∧
    (s.proposals pid).endTime < now ∧
    s.config.quorumThreshold ≤ (s.proposals pid).totalVotes := by
  unfold DAOGovernance.executeProposal at h
  by_cases h1 : ¬(0 < pid ∧ pid ≤ s.proposalCount)
  · rw [if_pos h1] at h
    exact Except.noConfusion h
  rw [if_neg h1] at h
  by_cases h2 : sender ≠ s.owner
  · rw [if_pos h2] at h
    exact Except.noConfusion h
  rw [if_neg h2] at h
  by_cases h3 : now ≤ (s.proposals pid).endTime
  · rw [if_pos h3] at h
    exact Except.noConfusion h
  rw [if_neg h3] at h
  by_cases h4 : (s.proposals pid).executed = true
  · rw [if_pos h4] at h
    exact Except.noConfusion h
  rw [if_neg h4] at h
  by_cases h5 : (s.proposals pid).cancelled = true
  · rw [if_pos h5] at h
    exact Except.noConfusion h
  rw [if_neg h5] at h
  by_cases h6 : (s.proposals pid).totalVotes < s.config.quorumThreshold
  · rw [if_pos h6] at h
    exact Except.noConfusion h
  exact ⟨by simpa using h4, by simpa using h5, not_not.mp h2, by omega,
    by omega⟩

/-- C9: along every reachable call sequence the `executed` and `cancelled`
flags of every proposal are permanent once set and never both true, a
successful `cancelProposal` requires both flags clear and a
proposer-or-owner caller, and a successful governance `executeProposal`
requires both flags clear. -/
theorem c9_flag_permanence :
    (∀ (selfA ownerA : Account) (t : TokenState) (ops more : List GOp)
      (pid : Nat),
      (((runG (initGov selfA ownerA t) ops).proposals pid).executed = true →
        ((runG (initGov selfA ownerA t) (ops ++ more)).proposals pid).executed
          = true) ∧
      (((runG (initGov selfA ownerA t) ops).proposals pid).cancelled = true →
        ((runG (initGov selfA ownerA t) (ops ++ more)).proposals pid).cancelled
          = true) ∧
      ¬(((runG (initGov selfA ownerA t) ops).proposals pid).executed = true ∧
        ((runG (initGov selfA ownerA t) ops).proposals pid).cancelled
          = true)) ∧
    (∀ (s : GovState) (sender : Account) (pid : Nat) (s' : GovState),
      DAOGovernance.cancelProposal s sender pid = .ok s' →
      (s.proposals pid).executed = false ∧
      (s.proposals pid).cancelled = false ∧
      (sender = (s.proposals pid).proposer ∨ sender = s.owner)) ∧
    (∀ (s : GovState) (sender : Account) (now pid : Nat) (s' : GovState),
      DAOGovernance.executeProposal s sender now pid = .ok s' →
      (s.proposals pid).executed = false ∧
      (s.proposals pid).cancelled = false) := by
  refine ⟨?_, ?_, ?_⟩
  · intro selfA ownerA t ops more pid
    have hI : InvG (runG (initGov selfA ownerA t) ops) :=
      invG_run _ ops (invG_init selfA ownerA t)
    have hX : ExclG (runG (initGov selfA ownerA t) ops) :=
      exclG_run _ ops (invG_init selfA ownerA t) (exclG_init selfA ownerA t)
    have happ : runG (initGov selfA ownerA t) (ops ++ more) =
        runG (runG (initGov selfA ownerA t) ops) more := by
      unfold runG
      exact List.foldl_append _ _ _ _
    rw [happ]
    have hm := flagsMono_run (runG (initGov selfA ownerA t) ops) more hI pid
    exact ⟨hm.1, hm.2, hX pid⟩
  · intro s sender pid s' h
    exact cancelProposal_ok_inv s sender pid s' h
  · intro s sender now pid s' h
    have hi := executeProposalG_ok_inv s sender now pid s' h
    exact ⟨hi.1, hi.2.1⟩

/-- Witness for C9: the cancel guard inversion at the concrete state `c9sA`
(cancel by the proposer succeeds, hence both flags were clear), plus the
exclusivity fact at the initial state. -/
theorem c9_flag_permanence_witness :
    ((c9sA.proposals 1).executed = false ∧
      (c9sA.proposals 1).cancelled = false ∧
      (3 = (c9sA.proposals 1).proposer ∨ 3 = c9sA.owner)) ∧
    ¬(((runG (initGov 50 9 tok0) []).proposals 1).executed = true ∧
      ((runG (initGov 50 9 tok0) []).proposals 1).cancelled = true) :=
  ⟨c9_flag_permanence.2.1 c9sA 3 1 c9sB rfl,
    (c9_flag_permanence.1 50 9 tok0 [] [] 1).2.2⟩

/-- C7: for an existing proposal, owner finalization fails with `StateError`
when the voting window is still open or the proposal is already executed or
cancelled; otherwise it fails with `QuorumNotMet` when `totalVotes` is below
the quorum threshold; otherwise it marks the proposal executed. -/
theorem c7_finalize_spec :
    (∀ (s : GovState) (sender : Account) (now pid : Nat),
      0 < pid → pid ≤ s.proposalCount → sender = s.owner →
      (now ≤ (s.proposals pid).endTime ∨ (s.proposals pid).executed = true ∨
        (s.proposals pid).cancelled = true) →
      DAOGovernance.executeProposal s sender now pid = .error .stateError) ∧
    (∀ (s : GovState) (sender : Account) (now pid : Nat),
      0 < pid → pid ≤ s.proposalCount → sender = s.owner →
      (s.proposals pid).endTime < now → (s.proposals pid).executed = false →
      (s.proposals pid).cancelled = false →
      (s.proposals pid).totalVotes < s.config.quorumThreshold →
      DAOGovernance.executeProposal s sender now pid
        = .error .quorumNotMet) ∧
    (∀ (s : GovState) (sender : Account) (now pid : Nat),
      0 < pid → pid ≤ s.proposalCount → sender = s.owner →
      (s.proposals pid).endTime < now → (s.proposals pid).executed = false →
      (s.proposals pid).cancelled = false →
      s.config.quorumThreshold ≤ (s.proposals pid).totalVotes →
      ∃ s', DAOGovernance.executeProposal s sender now pid = .ok s' ∧
        (s'.proposals pid).executed = true) := by
  refine ⟨?_, ?_, ?_⟩
  · intro s sender now pid hp1 hp2 hown hbad
    unfold DAOGovernance.executeProposal
    rw [if_neg (by omega : ¬¬(0 < pid ∧ pid ≤ s.proposalCount)),
      if_neg (by simp [hown] : ¬sender ≠ s.owner)]
    rcases hbad with hb | hb | hb
    · rw [if_pos hb]
    · by_cases ht : now ≤ (s.proposals pid).endTime
      · rw [if_pos ht]
      · rw [if_neg ht, if_pos hb]
    · by_cases ht : now ≤ (s.proposals pid).endTime
      · rw [if_pos ht]
      · by_cases he : (s.proposals pid).executed = true
        · rw [if_neg ht, if_pos he]
        · rw [if_neg ht, if_neg he, if_pos hb]
  · intro s sender now pid hp1 hp2 hown ht he hc hq
    unfold DAOGovernance.executeProposal
    rw [if_neg (by omega : ¬¬(0 < pid ∧ pid ≤ s.proposalCount)),
      if_neg (by simp [hown] : ¬sender ≠ s.owner),
      if_neg (by omega : ¬now ≤ (s.proposals pid).endTime),
      if_neg (by simp [he] : ¬(s.proposals pid).executed = true),
      if_neg (by simp [hc] : ¬(s.proposals pid).cancelled = true),
      if_pos hq]
  · intro s sender now pid hp1 hp2 hown ht he hc hq
    unfold DAOGovernance.executeProposal
    rw [if_neg (by omega : ¬¬(0 < pid ∧ pid ≤ s.proposalCount)),
      if_neg (by simp [hown] : ¬sender ≠ s.owner),
      if_neg (by omega : ¬now ≤ (s.proposals pid).endTime),
      if_neg (by simp [he] : ¬(s.proposals pid).executed = true),
      if_neg (by simp [hc] : ¬(s.proposals pid).cancelled = true),
      if_neg (by omega : ¬(s.proposals pid).totalVotes
        < s.config.quorumThreshold)]
    exact ⟨_, rfl, by simp [upd_same]⟩

/-- Witness for C7: with quorum threshold 100000, finalizing a closed
proposal with 4 total votes fails `QuorumNotMet`; with 100000 total votes it
succeeds and sets `executed`. -/
theorem c7_finalize_spec_witness :
    DAOGovernance.executeProposal c7s 9 101 1 = .error .quorumNotMet ∧
    (c7sE.proposals 1).executed = true := by
  constructor
  · exact c7_finalize_spec.2.1 c7s 9 101 1 (by decide) (by decide) rfl
      (by decide) rfl rfl (by decide)
  · obtain ⟨s', heq, hex⟩ := c7_finalize_spec.2.2 c7sBig 9 101 1 (by decide)
      (by decide) rfl (by decide) rfl rfl (by decide)
    have : c7sE = s' := by
      unfold c7sE
      rw [heq]
    rw [this]
    exact hex

/-- C3 counterexample: account 2 has voted on proposal 1, yet a further
`vote` call with `votes = 0` (inside the open window) fails with
`ValidationError`, not with `StateError` as the claim states for every
further vote call. -/
theorem c3_counterexample :
    (cex3s.proposals 1).hasVoted 2 = true ∧
    DAOGovernance.vote cex3s 2 50 1 0 = .error .validationError ∧
    Err.validationError ≠ Err.stateError :=
  ⟨rfl, rfl, by decide⟩

/-- C3 (amended): a successful vote records the has-voted flag; once that
flag is set, every further `vote` call by the same account on the same
proposal reverts (leaving all state unchanged), and it reverts with the
already-voted `StateError` whenever the repeat call is otherwise well formed
(window open, proposal live, in-range vote count, not paused) — a malformed
repeat call reverts with its own earlier guard error instead; and along
every reachable call sequence a recorded vote is never changed, so a voter
can never top up an existing vote. -/
theorem c3_no_double_vote :
    (∀ (s : GovState) (sender : Account) (now pid v : Nat) (s' : GovState),
      DAOGovernance.vote s sender now pid v = .ok s' →
      (s'.proposals pid).hasVoted sender = true) ∧
    (∀ (s : GovState) (sender : Account) (now pid v : Nat),
      (s.proposals pid).hasVoted sender = true →
      ∃ e, DAOGovernance.vote s sender now pid v = .error e) ∧
    (∀ (s : GovState) (sender : Account) (now pid v : Nat),
      0 < pid → pid ≤ s.proposalCount →
      (s.proposals pid).startTime ≤ now → now ≤ (s.proposals pid).endTime →
      (s.proposals pid).executed = false →
      (s.proposals pid).cancelled = false →
      s.paused = false → 0 < v → v ≤ s.config.maxVotesPerWallet →
      (s.proposals pid).hasVoted sender = true →
      DAOGovernance.vote s sender now pid v = .error .stateError) ∧
    (∀ (selfA ownerA : Account) (t : TokenState) (ops more : List GOp)
      (pid : Nat) (a : Account),
      ((runG (initGov selfA ownerA t) ops).proposals pid).hasVoted a = true →
      ((runG (initGov selfA ownerA t) (ops ++ more)).proposals pid).hasVoted a
        = true ∧
      ((runG (initGov selfA ownerA t) (ops ++ more)).proposals pid).votes a =
        ((runG (initGov selfA ownerA t) ops).proposals pid).votes a) := by
  refine ⟨?_, ?_, ?_, ?_⟩
  · intro s sender now pid v s' h
    exact (vote_ok_inv s sender now pid v s' h).2.2.2.2.2.2.2.2.2.2.1
  · intro s sender now pid v hv
    exact vote_voted_fails s sender now pid v hv
  · intro s sender now pid v hp1 hp2 hst hen he hc hpa hv0 hvm hv
    unfold DAOGovernance.vote
    rw [if_neg (by omega : ¬¬(0 < pid ∧ pid ≤ s.proposalCount)),
      if_neg (by omega : ¬now < (s.proposals pid).startTime),
      if_neg (by omega : ¬(s.proposals pid).endTime < now),
      if_neg (by simp [he, hc] : ¬((s.proposals pid).executed = true ∨
        (s.proposals pid).cancelled = true)),
      if_neg (by simp [hpa] : ¬s.paused = true),
      if_neg (by omega : ¬v = 0),
      if_neg (by omega : ¬s.config.maxVotesPerWallet < v),
      if_pos hv]
  · intro selfA ownerA t ops more pid a hv
    have happ : runG (initGov selfA ownerA t) (ops ++ more) =
        runG (runG (initGov selfA ownerA t) ops) more := by
      unfold runG
      exact List.foldl_append _ _ _ _
    rw [happ]
    exact votedStable_run (runG (initGov selfA ownerA t) ops) more
      (invG_run _ ops (invG_init selfA ownerA t)) pid a hv

/-- Witness for C3's amended theorem: at `cex3s`, a well-formed repeat vote
by account 2 fails with the already-voted `StateError`. -/
theorem c3_no_double_vote_witness :
    DAOGovernance.vote cex3s 2 50 1 5 = .error .stateError :=
  c3_no_double_vote.2.2.1 cex3s 2 50 1 5 (by decide) (by decide) (by decide)
    (by decide) rfl rfl rfl (by decide) (by decide) rfl

/-- Constructive success of `delegateVotes` for an account with no previous
outgoing delegation. -/
theorem delegateVotes_ok_fresh (s : GovState) (A B : Account)
    (hp : s.paused = false) (hB : B ≠ 0) (hBA : B ≠ A)
    (hfresh : s.delegatedTo A = 0) :
    DAOGovernance.delegateVotes s A B = .ok { s with
      delegatedTo := upd s.delegatedTo A B
      delegatedVotes := upd s.delegatedVotes B
        (s.delegatedVotes B + getVotingPower s.token A) } := by
  unfold DAOGovernance.delegateVotes
  rw [if_neg (by simp [hp]), if_neg hB, if_neg hBA]
  simp only []
  rw [if_neg (by simp [hfresh])]

/-- Constructive success of `revokeDelegation` when an outgoing delegation
exists and the delegatee's tally can absorb the subtraction. -/
theorem revokeDelegation_ok_of (s : GovState) (A : Account)
    (hp : s.paused = false) (hcur : s.delegatedTo A ≠ 0)
    (hle : getVotingPower s.token A ≤ s.delegatedVotes (s.delegatedTo A)) :
    DAOGovernance.revokeDelegation s A = .ok { s with
      delegatedVotes := upd s.delegatedVotes (s.delegatedTo A)
        (s.delegatedVotes (s.delegatedTo A) - getVotingPower s.token A)
      delegatedTo := upd s.delegatedTo A 0 } := by
  unfold DAOGovernance.revokeDelegation
  rw [if_neg (by simp [hp]), if_neg hcur]
  simp only []
  rw [if_neg (by omega)]

/-- Inversion of a successful `delegateVotes`: the token ledger is untouched,
the edge is recorded, and the delegator's own tally of incoming power does
not change (delegation only credits the delegatee). -/
theorem delegateVotes_ok_inv (s : GovState) (A B : Account) (s' : GovState)
    (h : DAOGovernance.delegateVotes s A B = .ok s') :
    s.paused = false ∧ B ≠ 0 ∧ B ≠ A ∧ s'.paused = s.paused ∧
    s'.token = s.token ∧ s'.delegatedTo = upd s.delegatedTo A B ∧
    (s.delegatedTo A = 0 →
      s'.delegatedVotes = upd s.delegatedVotes B
        (s.delegatedVotes B + getVotingPower s.token A)) ∧
    (s.delegatedTo A ≠ A → s'.delegatedVotes A = s.delegatedVotes A) := by
  unfold DAOGovernance.delegateVotes at h
  by_cases h1 : s.paused = true
  · rw [if_pos h1] at h
    exact Except.noConfusion h
  rw [if_neg h1] at h
  by_cases h2 : B = 0
  · rw [if_pos h2] at h
    exact Except.noConfusion h
  rw [if_neg h2] at h
  by_cases h3 : B = A
  · rw [if_pos h3] at h
    exact Except.noConfusion h
  rw [if_neg h3] at h
  simp only [] at h
  by_cases h4 : s.delegatedTo A ≠ 0
  · rw [if_pos h4] at h
    by_cases h5 : s.delegatedVotes (s.delegatedTo A)
        < getVotingPower s.token A
    · rw [if_pos h5] at h
      exact Except.noConfusion h
    rw [if_neg h5] at h
    have hinj := Except.ok.inj h
    subst hinj
    refine ⟨by simpa using h1, h2, h3, rfl, rfl, rfl,
      fun h0 => absurd h0 h4, ?_⟩
    intro hAA
    have hA1 : A ≠ B := fun hh => h3 hh.symm
    have hA2 : A ≠ s.delegatedTo A := fun hh => hAA hh.symm
    show upd (upd s.delegatedVotes (s.delegatedTo A)
      (s.delegatedVotes (s.delegatedTo A) - getVotingPower s.token A)) B _ A
      = s.delegatedVotes A
    rw [upd_other _ _ _ _ hA1, upd_other _ _ _ _ hA2]
  · rw [if_neg h4] at h
    have hinj := Except.ok.inj h
    subst hinj
    refine ⟨by simpa using h1, h2, h3, rfl, rfl, rfl, fun _ => rfl, ?_⟩
    intro _
    have hA1 : A ≠ B := fun hh => h3 hh.symm
    show upd s.delegatedVotes B _ A = s.delegatedVotes A
    rw [upd_other _ _ _ _ hA1]

/-- Summing a pointwise-updated map over a list avoiding the key. -/
theorem sum_map_upd_not_mem {f : Account → Nat} {k : Account} {v : Nat}
    (L : List Account) (hk : k ∉ L) :
    (L.map (upd f k v)).sum = (L.map f).sum := by
  induction L with
  | nil => rfl
  | cons a rest ih =>
    simp only [List.map_cons, List.sum_cons]
    rw [upd_other f k v a
      (fun hh => hk (hh ▸ List.mem_cons_self a rest)),
      ih (fun hm => hk (List.mem_cons_of_mem a hm))]

/-- Summing a map after adding `c` at one key of a duplicate-free list adds
`c` to the total. -/
theorem sum_map_upd_add (f : Account → Nat) (k : Account) (c : Nat)
    (L : List Account) (hnd : L.Nodup) (hk : k ∈ L) :
    (L.map (upd f k (f k + c))).sum = (L.map f).sum + c := by
  induction L with
  | nil => cases hk
  | cons a rest ih =>
    simp only [List.map_cons, List.sum_cons]
    by_cases ha : a = k
    · subst ha
      rw [upd_same]
      rw [sum_map_upd_not_mem rest (List.nodup_cons.mp hnd).1]
      omega
    · rw [upd_other f k _ a ha]
      have hk' : k ∈ rest := by
        cases hk with
        | head => exact absurd rfl ha
        | tail _ hm => exact hm
      rw [ih (List.nodup_cons.mp hnd).2 hk']
      omega

/-- C1 counterexample: after account 1 delegates to account 2, account 1
has an outgoing delegation edge and no incoming delegated power, yet its
available voting power is still its full ledger power (not 0), and it can
still cast a successful vote with it — its own power contributes to its own
available power, contrary to the claim. -/
theorem c1_counterexample :
    DAOGovernance.delegateVotes c1s0 1 2 = .ok c1s1 ∧
    c1s1.delegatedTo 1 = 2 ∧
    c1s1.delegatedVotes 1 = 0 ∧
    availableVotes c1s1 1 = 5000 * WEI ∧
    5000 * WEI ≠ 0 ∧
    DAOGovernance.vote c1s1 1 50 1 4 = .ok c1s2 ∧
    (c1s2.proposals 1).votes 1 = 4 :=
  ⟨rfl, rfl, rfl, rfl, by norm_num [WEI], rfl, rfl⟩

/-- C1 (amended): the power available to an account inside `vote` is its
checkpointed token voting power plus the governance-level delegated tally;
a governance delegation leaves the token ledger untouched, so the
delegator's own available power is unchanged by delegating away, while the
delegatee's available power additionally grows by the delegator's snapshot
power (the delegator's power is counted on both sides). -/
theorem c1_effective_power :
    (∀ (s : GovState) (sender : Account) (now pid v : Nat) (s' : GovState),
      DAOGovernance.vote s sender now pid v = .ok s' →
      v * v * WEI ≤ availableVotes s sender) ∧
    (∀ (s : GovState) (a : Account),
      availableVotes s a = getVotingPower s.token a + s.delegatedVotes a) ∧
    (∀ (s : GovState) (A B : Account) (s' : GovState),
      DAOGovernance.delegateVotes s A B = .ok s' →
      getVotingPower s'.token A = getVotingPower s.token A ∧
      (s.delegatedTo A ≠ A → availableVotes s' A = availableVotes s A) ∧
      (s.delegatedTo A = 0 →
        availableVotes s' B = availableVotes s B
          + getVotingPower s.token A)) := by
  refine ⟨?_, ?_, ?_⟩
  · intro s sender now pid v s' h
    exact (vote_ok_inv s sender now pid v s' h).2.2.2.2.2.2.2.2.2.1
  · intro s a
    rfl
  · intro s A B s' h
    obtain ⟨hp, hB, hBA, hpa, htok, hdt, hdvFresh, hdvA⟩ :=
      delegateVotes_ok_inv s A B s' h
    refine ⟨by rw [htok], ?_, ?_⟩
    · intro hAA
      unfold availableVotes
      rw [htok, hdvA hAA]
    · intro hfresh
      unfold availableVotes
      rw [htok, hdvFresh hfresh, upd_same]
      omega

/-- Witness for C1's amended theorem at the concrete delegation
`c1s0 → c1s1`: account 1's own available power is unchanged and account 2's
grew by account 1's 5000-token power. -/
theorem c1_effective_power_witness :
    availableVotes c1s1 1 = availableVotes c1s0 1 ∧
    availableVotes c1s1 2 = availableVotes c1s0 2
      + getVotingPower c1s0.token 1 := by
  have h := c1_effective_power.2.2 c1s0 1 2 c1s1 rfl
  exact ⟨h.2.1 (by decide), h.2.2 rfl⟩

/-- Decomposition of the summed available power over any account list. -/
theorem sum_availableVotes (s : GovState) (L : List Account) :
    (L.map (availableVotes s)).sum =
      (L.map (fun a => getVotingPower s.token a)).sum +
        (L.map s.delegatedVotes).sum := by
  induction L with
  | nil => rfl
  | cons a rest ih =>
    simp only [List.map_cons, List.sum_cons]
    rw [ih]
    unfold availableVotes
    omega

/-- C8 counterexample: after the single delegation 1 → 2 (account 1 holds
all the ledger power, 5 units; every other account has none, so the sums
over `[1, 2]` are the system totals), the total available power is 10 while
the total ledger power is 5 — delegation does not conserve the sum of
effective power. -/
theorem c8_counterexample :
    DAOGovernance.delegateVotes c8s0 1 2 = .ok c8s1 ∧
    (([1, 2] : List Account).map (availableVotes c8s1)).sum = 10 ∧
    (([1, 2] : List Account).map
      (fun a => getVotingPower c8s1.token a)).sum = 5 ∧
    (10 : Nat) ≠ 5 :=
  ⟨rfl, rfl, rfl, by decide⟩

/-- C8 (amended): `delegate(A,B)` immediately followed by `revoke(A)` (for a
previously undelegated A) restores every account's available power exactly;
but delegation does not conserve total power: the summed available power
always equals summed ledger power plus the summed delegated tallies, and a
fresh delegation increases the total by the delegator's snapshot power
(double counting), so Σ available power exceeds Σ ledger power whenever a
delegator has nonzero power. -/
theorem c8_delegation_conservation :
    (∀ (s : GovState) (A B : Account),
      s.paused = false → B ≠ 0 → B ≠ A → s.delegatedTo A = 0 →
      ∃ s1 s2, DAOGovernance.delegateVotes s A B = .ok s1 ∧
        DAOGovernance.revokeDelegation s1 A = .ok s2 ∧
        ∀ a, availableVotes s2 a = availableVotes s a) ∧
    (∀ (s : GovState) (L : List Account),
      (L.map (availableVotes s)).sum =
        (L.map (fun a => getVotingPower s.token a)).sum +
          (L.map s.delegatedVotes).sum) ∧
    (∀ (s : GovState) (A B : Account) (s' : GovState) (L : List Account),
      s.delegatedTo A = 0 → DAOGovernance.delegateVotes s A B = .ok s' →
      L.Nodup → B ∈ L →
      (L.map (availableVotes s')).sum =
        (L.map (availableVotes s)).sum + getVotingPower s.token A) := by
  refine ⟨?_, ?_, ?_⟩
  · intro s A B hp hB hBA hfresh
    have h1 := delegateVotes_ok_fresh s A B hp hB hBA hfresh
    refine ⟨_, _, h1, revokeDelegation_ok_of _ A hp ?_ ?_, ?_⟩
    · intro hh
      simp only [upd_same] at hh
      exact hB hh
    · simp only [upd_same]
      omega
    · intro a
      unfold availableVotes getVotingPower
      simp only [upd_same]
      by_cases haB : a = B
      · subst haB
        rw [upd_same]
        omega
      · rw [upd_other _ _ _ _ haB, upd_other _ _ _ _ haB]
  · exact sum_availableVotes
  · intro s A B s' L hfresh h hnd hkB
    obtain ⟨hp, hB, hBA, hpa, htok, hdt, hdvFresh, _⟩ :=
      delegateVotes_ok_inv s A B s' h
    have hdv := hdvFresh hfresh
    rw [sum_availableVotes s' L, sum_availableVotes s L]
    have e1 : (L.map (fun a => getVotingPower s'.token a)).sum =
        (L.map (fun a => getVotingPower s.token a)).sum := by
      rw [htok]
    have e2 : (L.map s'.delegatedVotes).sum =
        (L.map s.delegatedVotes).sum + getVotingPower s.token A := by
      rw [hdv]
      exact sum_map_upd_add s.delegatedVotes B (getVotingPower s.token A) L
        hnd hkB
    rw [e1, e2]
    omega

/-- Witness for C8's amended theorem: the concrete round trip
`c8s0 → c8s1 → c8s2` restores the available power of accounts 1 and 2. -/
theorem c8_delegation_conservation_witness :
    availableVotes c8s2 1 = availableVotes c8s0 1 ∧
    availableVotes c8s2 2 = availableVotes c8s0 2 := by
  obtain ⟨s1, s2, h1, h2, hav⟩ := c8_delegation_conservation.1 c8s0 1 2 rfl
    (by decide) (by decide) rfl
  have e1 : c8s1 = s1 := by
    unfold c8s1
    rw [h1]
  have e2 : c8s2 = s2 := by
    unfold c8s2
    rw [e1, h2]
  rw [e2]
  exact ⟨hav 1, hav 2⟩

/-- C2: under the vote preconditions (existing live proposal, open window,
first vote, in-range vote count, no overflow, a real caller), `vote` prices
`v` votes at the quadratic cost `v * v` whole tokens (`v * v * 10^18` wei,
the value `calculateQuadraticCost` returns scaled to wei — e.g. 4 votes
cost 16 token units): it fails with `InsufficientPower` exactly when the
available power (own checkpointed power plus delegated votes) is below that
cost, and on success debits exactly that cost from the voter's balance. -/
theorem c2_vote_quadratic_cost :
    ∀ (s : GovState) (sender : Account) (now pid v : Nat),
      0 < pid → pid ≤ s.proposalCount →
      (s.proposals pid).startTime ≤ now → now ≤ (s.proposals pid).endTime →
      (s.proposals pid).executed = false →
      (s.proposals pid).cancelled = false →
      s.paused = false → (s.proposals pid).hasVoted sender = false →
      0 < v → v ≤ s.config.maxVotesPerWallet →
      v * v * WEI ≤ UMAX → availableVotes s sender ≤ UMAX → sender ≠ 0 →
      (v ≤ 2 ^ 128 - 1 → calculateQuadraticCost v = .ok (v * v)) ∧
      (DAOGovernance.vote s sender now pid v = .error .insufficientPower ↔
        availableVotes s sender < v * v * WEI) ∧
      (∀ s', DAOGovernance.vote s sender now pid v = .ok s' →
        s'.token.balance sender = s.token.balance sender - v * v * WEI ∧
        v * v * WEI ≤ s.token.balance sender) := by
  intro s sender now pid v hp1 hp2 hst hen he hc hpa hnv hv0 hvm hUM hAV hs0
  have hvv : v * v ≤ v * v * WEI :=
    Nat.le_mul_of_pos_right _ (by norm_num [WEI])
  have hAV' : getVotingPower s.token sender + s.delegatedVotes sender
      ≤ UMAX := hAV
  refine ⟨fun hle => c4_quadraticCost_spec.1 v hv0 hle, ?_, ?_⟩
  · constructor
    · intro h
      by_contra hcon
      push_neg at hcon
      unfold availableVotes at hcon
      unfold DAOGovernance.vote at h
      rw [if_neg (by omega : ¬¬(0 < pid ∧ pid ≤ s.proposalCount)),
        if_neg (by omega : ¬now < (s.proposals pid).startTime),
        if_neg (by omega : ¬(s.proposals pid).endTime < now),
        if_neg (by simp [he, hc] : ¬((s.proposals pid).executed = true ∨
          (s.proposals pid).cancelled = true)),
        if_neg (by simp [hpa] : ¬s.paused = true),
        if_neg (by omega : ¬v = 0),
        if_neg (by omega : ¬s.config.maxVotesPerWallet < v),
        if_neg (by simp [hnv] : ¬(s.proposals pid).hasVoted sender = true),
        if_neg (by omega : ¬UMAX < v * v),
        if_neg (by omega : ¬UMAX < v * v * WEI),
        if_neg (by omega : ¬UMAX < getVotingPower s.token sender
          + s.delegatedVotes sender),
        if_neg (by omega : ¬getVotingPower s.token sender
          + s.delegatedVotes sender < v * v * WEI)] at h
      cases hb : burnFromOp s.token s.self sender (v * v * WEI) with
      | error e =>
        rw [hb] at h
        have he2 := Except.error.inj h
        rw [burnFromOp_error_inv _ _ _ _ _ hb] at he2
        exact Err.noConfusion he2
      | ok t' =>
        rw [hb] at h
        exact Except.noConfusion h
    · intro hlt
      unfold availableVotes at hlt
      unfold DAOGovernance.vote
      rw [if_neg (by omega : ¬¬(0 < pid ∧ pid ≤ s.proposalCount)),
        if_neg (by omega : ¬now < (s.proposals pid).startTime),
        if_neg (by omega : ¬(s.proposals pid).endTime < now),
        if_neg (by simp [he, hc] : ¬((s.proposals pid).executed = true ∨
          (s.proposals pid).cancelled = true)),
        if_neg (by simp [hpa] : ¬s.paused = true),
        if_neg (by omega : ¬v = 0),
        if_neg (by omega : ¬s.config.maxVotesPerWallet < v),
        if_neg (by simp [hnv] : ¬(s.proposals pid).hasVoted sender = true),
        if_neg (by omega : ¬UMAX < v * v),
        if_neg (by omega : ¬UMAX < v * v * WEI),
        if_neg (by omega : ¬UMAX < getVotingPower s.token sender
          + s.delegatedVotes sender),
        if_pos (by omega : getVotingPower s.token sender
          + s.delegatedVotes sender < v * v * WEI)]
  · intro s' h
    exact (vote_ok_inv s sender now pid v s' h).2.2.2.2.2.2.2.2.2.2.2.2.2.2 hs0

/-- Witness for C2 at `c1s0`: 4 votes are priced by the quadratic-cost
library at 16, and the successful vote debits exactly 16 tokens
(`16 * 10^18` wei) from account 1. -/
theorem c2_vote_quadratic_cost_witness :
    calculateQuadraticCost 4 = .ok 16 ∧
    c2sV.token.balance 1 = c1s0.token.balance 1 - 4 * 4 * WEI := by
  have h := c2_vote_quadratic_cost c1s0 1 50 1 4 (by decide) (by decide)
    (by decide) (by decide) rfl rfl rfl rfl (by decide) (by decide)
    (by decide) (by decide) (by decide)
  refine ⟨h.1 (by norm_num), ?_⟩
  exact (h.2.2 c2sV rfl).1

/-- Characterization of `stepT` on a successful call. -/
theorem stepT_eq_of_ok {s s' : TreasuryState} {op : TOp}
    (h : execT s op = .ok s') : stepT s op = s' := by
  unfold stepT
  rw [h]

/-- Characterization of `stepT` on a reverting call. -/
theorem stepT_eq_of_error {s : TreasuryState} {op : TOp} {e : Err}
    (h : execT s op = .error e) : stepT s op = s := by
  unfold stepT
  rw [h]

theorem balInv_init (g : GovState) (ownerA : Account) :
    BalInv (initTreasury g ownerA) := by
  intro tok
  unfold initTreasury
  by_cases h : tok = 0 <;> simp [upd, h, defaultTokenBalance]

/-- Preservation helper: a point update of the balance table keeps the
per-asset invariant if the written record satisfies it. -/
theorem balInv_upd (tb : Account → TokenBalance) (K : Account)
    (REC : TokenBalance)
    (hB : ∀ tok, (tb tok).balance = (tb tok).allocated + (tb tok).available)
    (hK : (tb K).balance = (tb K).allocated + (tb K).available →
      REC.balance = REC.allocated + REC.available) :
    ∀ tok, (upd tb K REC tok).balance =
      (upd tb K REC tok).allocated + (upd tb K REC tok).available := by
  intro tok
  by_cases htk : tok = K
  · rw [htk, upd_same]
    exact hK (hB K)
  · rw [upd_other _ _ _ _ htk]
    exact hB tok

set_option maxHeartbeats 1600000 in
/-- Every successful treasury call preserves the balance invariant. -/
theorem balInv_exec (s : TreasuryState) (op : TOp) (s' : TreasuryState)
    (h : execT s op = .ok s') (hB : BalInv s) : BalInv s' := by
  cases op with
  | addSupportedToken sender token =>
    simp only [execT, DAOTreasury.addSupportedToken] at h
    split_ifs at h <;> try exact Except.noConfusion h
    all_goals (have hinj := Except.ok.inj h; subst hinj; first
      | exact hB
      | exact balInv_upd _ _ _ hB (fun hh => by simp only []; try omega))
  | depositETH sender value =>
    simp only [execT, DAOTreasury.depositETH] at h
    split_ifs at h <;> try exact Except.noConfusion h
    all_goals (have hinj := Except.ok.inj h; subst hinj; first
      | exact hB
      | exact balInv_upd _ _ _ hB (fun hh => by simp only []; try omega))
  | depositToken sender token amount xferOk =>
    simp only [execT, DAOTreasury.depositToken] at h
    split_ifs at h <;> try exact Except.noConfusion h
    all_goals (have hinj := Except.ok.inj h; subst hinj; first
      | exact hB
      | exact balInv_upd _ _ _ hB (fun hh => by simp only []; try omega))
  | scheduleProposalExecution sender pid recipient token amount data =>
    simp only [execT, DAOTreasury.scheduleProposalExecution] at h
    split_ifs at h <;> try exact Except.noConfusion h
    all_goals (have hinj := Except.ok.inj h; subst hinj; first
      | exact hB
      | exact balInv_upd _ _ _ hB (fun hh => by simp only []; try omega))
  | executeProposal sender executionId now success =>
    simp only [execT, DAOTreasury.executeProposal] at h
    split_ifs at h <;> try exact Except.noConfusion h
    all_goals (have hinj := Except.ok.inj h; subst hinj; first
      | exact hB
      | exact balInv_upd _ _ _ hB (fun hh => by simp only []; try omega))
  | createBudgetAllocation sender category token amount =>
    simp only [execT, DAOTreasury.createBudgetAllocation] at h
    split_ifs at h <;> try exact Except.noConfusion h
    all_goals (have hinj := Except.ok.inj h; subst hinj; first
      | exact hB
      | exact balInv_upd _ _ _ hB (fun hh => by simp only []; try omega))
  | spendFromBudget sender category recipient amount xferOk =>
    simp only [execT, DAOTreasury.spendFromBudget] at h
    split_ifs at h <;> try exact Except.noConfusion h
    all_goals (have hinj := Except.ok.inj h; subst hinj; first
      | exact hB
      | exact balInv_upd _ _ _ hB (fun hh => by simp only []; try omega))
  | addTreasuryManager sender m =>
    simp only [execT, DAOTreasury.addTreasuryManager] at h
    split_ifs at h <;> try exact Except.noConfusion h
    all_goals (have hinj := Except.ok.inj h; subst hinj; exact hB)
  | removeTreasuryManager sender m =>
    simp only [execT, DAOTreasury.removeTreasuryManager] at h
    split_ifs at h <;> try exact Except.noConfusion h
    all_goals (have hinj := Except.ok.inj h; subst hinj; exact hB)
  | addEmergencyManager sender m =>
    simp only [execT, DAOTreasury.addEmergencyManager] at h
    split_ifs at h <;> try exact Except.noConfusion h
    all_goals (have hinj := Except.ok.inj h; subst hinj; exact hB)
  | removeEmergencyManager sender m =>
    simp only [execT, DAOTreasury.removeEmergencyManager] at h
    split_ifs at h <;> try exact Except.noConfusion h
    all_goals (have hinj := Except.ok.inj h; subst hinj; exact hB)
  | toggleEmergencyMode sender =>
    simp only [execT, DAOTreasury.toggleEmergencyMode] at h
    split_ifs at h <;> try exact Except.noConfusion h
    all_goals (have hinj := Except.ok.inj h; subst hinj; exact hB)
  | emergencyWithdraw sender token toA amount xferOk =>
    simp only [execT, DAOTreasury.emergencyWithdraw] at h
    split_ifs at h <;> try exact Except.noConfusion h
    all_goals (have hinj := Except.ok.inj h; subst hinj; exact hB)
  | receiveEth sender value =>
    simp only [execT, DAOTreasury.receiveEth] at h
    split_ifs at h <;> try exact Except.noConfusion h
    all_goals (have hinj := Except.ok.inj h; subst hinj; first
      | exact hB
      | exact balInv_upd _ _ _ hB (fun hh => by simp only []; try omega))
  | govCall op =>
    simp only [execT, Except.ok.injEq] at h
    subst h
    exact hB

theorem balInv_step (s : TreasuryState) (op : TOp) (hB : BalInv s) :
    BalInv (stepT s op) := by
  cases hE : execT s op with
  | error e =>
    rw [stepT_eq_of_error hE]
    exact hB
  | ok s' =>
    rw [stepT_eq_of_ok hE]
    exact balInv_exec s op s' hE hB

/-- C5: starting from the all-zero treasury, after every sequence of
treasury operations (deposits, scheduling, execution with both its success
and failed-then-rolled-back transfer paths, budget creation and spending,
manager changes, emergency withdrawals, and interleaved governance calls)
every asset satisfies `balance = allocated + available`. -/
theorem c5_treasury_balance_invariant :
    ∀ (g : GovState) (ownerA : Account) (ops : List TOp) (tok : Account),
      ((runT (initTreasury g ownerA) ops).tokenBalances tok).balance =
        ((runT (initTreasury g ownerA) ops).tokenBalances tok).allocated +
        ((runT (initTreasury g ownerA) ops).tokenBalances tok).available := by
  intro g ownerA ops
  suffices hgen : ∀ (s : TreasuryState), BalInv s → BalInv (runT s ops) from
    hgen (initTreasury g ownerA) (balInv_init g ownerA)
  induction ops with
  | nil => exact fun s hs => hs
  | cons op rest ih =>
    exact fun s hs => ih (stepT s op) (balInv_step s op hs)

set_option maxHeartbeats 1600000 in
/-- Any successful treasury call either leaves the execution table alone,
appends a fresh (unexecuted) record at the next sequential id, or touches a
single existing record that was not yet executed. -/
theorem execT_exec_shape (s : TreasuryState) (op : TOp) (s' : TreasuryState)
    (h : execT s op = .ok s') :
    (s'.totalProposalExecutions = s.totalProposalExecutions ∧
      s'.proposalExecutions = s.proposalExecutions) ∨
    (s'.totalProposalExecutions = s.totalProposalExecutions + 1 ∧
      ∃ ex, s'.proposalExecutions = upd s.proposalExecutions
          (s.totalProposalExecutions + 1) ex ∧ ex.executed = false) ∨
    (s'.totalProposalExecutions = s.totalProposalExecutions ∧
      ∃ i, 0 < i ∧ i ≤ s.totalProposalExecutions ∧
        (s.proposalExecutions i).executed = false ∧
        ∀ j, j ≠ i → s'.proposalExecutions j = s.proposalExecutions j) := by
  cases op with
  | scheduleProposalExecution sender pid recipient token amount data =>
    simp only [execT, DAOTreasury.scheduleProposalExecution] at h
    split_ifs at h <;> try exact Except.noConfusion h
    have hinj := Except.ok.inj h
    subst hinj
    exact Or.inr (Or.inl ⟨rfl, _, rfl, rfl⟩)
  | executeProposal sender executionId now success =>
    simp only [execT, DAOTreasury.executeProposal] at h
    split_ifs at h with h1 h2 h3 h4 <;> try exact Except.noConfusion h
    all_goals (have hinj := Except.ok.inj h; subst hinj; exact Or.inr (Or.inr ⟨rfl, executionId, h3.1, h3.2, (by simpa using h4), fun j hj => upd_other _ _ _ _ hj⟩))
  | addSupportedToken sender token =>
    simp only [execT, DAOTreasury.addSupportedToken] at h
    split_ifs at h <;> try exact Except.noConfusion h
    all_goals (have hinj := Except.ok.inj h; subst hinj; exact Or.inl ⟨rfl, rfl⟩)
  | depositETH sender value =>
    simp only [execT, DAOTreasury.depositETH] at h
    split_ifs at h <;> try exact Except.noConfusion h
    all_goals (have hinj := Except.ok.inj h; subst hinj; exact Or.inl ⟨rfl, rfl⟩)
  | depositToken sender token amount xferOk =>
    simp only [execT, DAOTreasury.depositToken] at h
    split_ifs at h <;> try exact Except.noConfusion h
    all_goals (have hinj := Except.ok.inj h; subst hinj; exact Or.inl ⟨rfl, rfl⟩)
  | createBudgetAllocation sender category token amount =>
    simp only [execT, DAOTreasury.createBudgetAllocation] at h
    split_ifs at h <;> try exact Except.noConfusion h
    all_goals (have hinj := Except.ok.inj h; subst hinj; exact Or.inl ⟨rfl, rfl⟩)
  | spendFromBudget sender category recipient amount xferOk =>
    simp only [execT, DAOTreasury.spendFromBudget] at h
    split_ifs at h <;> try exact Except.noConfusion h
    all_goals (have hinj := Except.ok.inj h; subst hinj; exact Or.inl ⟨rfl, rfl⟩)
  | addTreasuryManager sender m =>
    simp only [execT, DAOTreasury.addTreasuryManager] at h
    split_ifs at h <;> try exact Except.noConfusion h
    all_goals (have hinj := Except.ok.inj h; subst hinj; exact Or.inl ⟨rfl, rfl⟩)
  | removeTreasuryManager sender m =>
    simp only [execT, DAOTreasury.removeTreasuryManager] at h
    split_ifs at h <;> try exact Except.noConfusion h
    all_goals (have hinj := Except.ok.inj h; subst hinj; exact Or.inl ⟨rfl, rfl⟩)
  | addEmergencyManager sender m =>
    simp only [execT, DAOTreasury.addEmergencyManager] at h
    split_ifs at h <;> try exact Except.noConfusion h
    all_goals (have hinj := Except.ok.inj h; subst hinj; exact Or.inl ⟨rfl, rfl⟩)
  | removeEmergencyManager sender m =>
    simp only [execT, DAOTreasury.removeEmergencyManager] at h
    split_ifs at h <;> try exact Except.noConfusion h
    all_goals (have hinj := Except.ok.inj h; subst hinj; exact Or.inl ⟨rfl, rfl⟩)
  | toggleEmergencyMode sender =>
    simp only [execT, DAOTreasury.toggleEmergencyMode] at h
    split_ifs at h <;> try exact Except.noConfusion h
    all_goals (have hinj := Except.ok.inj h; subst hinj; exact Or.inl ⟨rfl, rfl⟩)
  | emergencyWithdraw sender token toA amount xferOk =>
    simp only [execT, DAOTreasury.emergencyWithdraw] at h
    split_ifs at h <;> try exact Except.noConfusion h
    all_goals (have hinj := Except.ok.inj h; subst hinj; exact Or.inl ⟨rfl, rfl⟩)
  | receiveEth sender value =>
    simp only [execT, DAOTreasury.receiveEth] at h
    split_ifs at h <;> try exact Except.noConfusion h
    all_goals (have hinj := Except.ok.inj h; subst hinj; exact Or.inl ⟨rfl, rfl⟩)
  | govCall op =>
    simp only [execT, Except.ok.injEq] at h
    subst h
    exact Or.inl ⟨rfl, rfl⟩

theorem execInv_init (g : GovState) (ownerA : Account) :
    ExecInv (initTreasury g ownerA) :=
  fun _ _ => rfl

theorem execInv_step (s : TreasuryState) (op : TOp) (hI : ExecInv s) :
    ExecInv (stepT s op) := by
  cases hE : execT s op with
  | error e =>
    rw [stepT_eq_of_error hE]
    exact hI
  | ok s' =>
    rw [stepT_eq_of_ok hE]
    rcases execT_exec_shape s op s' hE with ⟨hc, hp⟩ | ⟨hc, ex, hp, _⟩ |
      ⟨hc, i, hi1, hi2, _, hq⟩
    · intro j hj
      rw [hp]
      exact hI j (by omega)
    · intro j hj
      rw [hp,
        upd_other _ _ _ _ (by omega : j ≠ s.totalProposalExecutions + 1)]
      exact hI j (by omega)
    · intro j hj
      rw [hq j (by omega)]
      exact hI j (by omega)

/-- Once an execution is marked done, no treasury call ever clears it. -/
theorem execPerm_step (s : TreasuryState) (op : TOp) (hI : ExecInv s)
    (e : Nat) (hx : (s.proposalExecutions e).executed = true) :
    ((stepT s op).proposalExecutions e).executed = true := by
  cases hE : execT s op with
  | error err =>
    rw [stepT_eq_of_error hE]
    exact hx
  | ok s' =>
    rw [stepT_eq_of_ok hE]
    rcases execT_exec_shape s op s' hE with ⟨hc, hp⟩ | ⟨hc, ex, hp, hex⟩ |
      ⟨hc, i, hi1, hi2, hpre, hq⟩
    · rw [hp]
      exact hx
    · by_cases he : e = s.totalProposalExecutions + 1
      · rw [hI e (by omega)] at hx
        exact absurd hx (by simp [defaultExecution])
      · rw [hp, upd_other _ _ _ _ he]
        exact hx
    · by_cases he : e = i
      · rw [he, hpre] at hx
        exact Bool.noConfusion hx
      · rw [hq e he]
        exact hx

theorem execInv_run (ops : List TOp) :
    ∀ s : TreasuryState, ExecInv s → ExecInv (runT s ops) := by
  induction ops with
  | nil => exact fun s hs => hs
  | cons op rest ih =>
    exact fun s hs => ih (stepT s op) (execInv_step s op hs)

theorem execPerm_run (ops : List TOp) (e : Nat) :
    ∀ s : TreasuryState, ExecInv s →
    (s.proposalExecutions e).executed = true →
    ((runT s ops).proposalExecutions e).executed = true := by
  induction ops with
  | nil => exact fun s _ hx => hx
  | cons op rest ih =>
    exact fun s hs hx =>
      ih (stepT s op) (execInv_step s op hs) (execPerm_step s op hs e hx)

/-- Source `executeProposal` on an already-executed id always reverts. -/
theorem executeProposalT_executed_errors (s : TreasuryState)
    (sender : Account) (e now : Nat) (success : Bool)
    (hx : (s.proposalExecutions e).executed = true) :
    ∃ err, DAOTreasury.executeProposal s sender e now success
      = .error err := by
  by_cases h1 : ¬DAOTreasury.isManager s sender
  · exact ⟨_, by unfold DAOTreasury.executeProposal; rw [if_pos h1]⟩
  by_cases h2 : s.emergencyMode = true
  · exact ⟨_, by
      unfold DAOTreasury.executeProposal; rw [if_neg h1, if_pos h2]⟩
  by_cases h3 : ¬(0 < e ∧ e ≤ s.totalProposalExecutions)
  · exact ⟨_, by
      unfold DAOTreasury.executeProposal
      rw [if_neg h1, if_neg h2, if_pos h3]⟩
  · exact ⟨.stateError, by
      unfold DAOTreasury.executeProposal
      rw [if_neg h1, if_neg h2, if_neg h3]
      simp only []
      rw [if_pos hx]⟩

/-- A successful `executeProposal` whose transfer oracle reports success
marks the execution done; its guard also shows it was not done before. -/
theorem executeProposalT_ok_true_inv (s : TreasuryState) (sender : Account)
    (eid now : Nat) (s' : TreasuryState)
    (h : DAOTreasury.executeProposal s sender eid now true = .ok s') :
    (s.proposalExecutions eid).executed = false ∧
    (s'.proposalExecutions eid).executed = true := by
  unfold DAOTreasury.executeProposal at h
  by_cases h1 : ¬DAOTreasury.isManager s sender
  · rw [if_pos h1] at h
    exact Except.noConfusion h
  rw [if_neg h1] at h
  by_cases h2 : s.emergencyMode = true
  · rw [if_pos h2] at h
    exact Except.noConfusion h
  rw [if_neg h2] at h
  by_cases h3 : ¬(0 < eid ∧ eid ≤ s.totalProposalExecutions)
  · rw [if_pos h3] at h
    exact Except.noConfusion h
  rw [if_neg h3] at h
  simp only [] at h
  by_cases h4 : (s.proposalExecutions eid).executed = true
  · rw [if_pos h4] at h
    exact Except.noConfusion h
  rw [if_neg h4] at h
  by_cases h5 : ¬(0 < (s.proposalExecutions eid).proposalId ∧
      (s.proposalExecutions eid).proposalId ≤ s.gov.proposalCount)
  · rw [if_pos h5] at h
    exact Except.noConfusion h
  rw [if_neg h5] at h
  by_cases h6 : ¬(s.gov.proposals
      (s.proposalExecutions eid).proposalId).executed = true
  · rw [if_pos h6] at h
    exact Except.noConfusion h
  rw [if_neg h6] at h
  by_cases h7 : (s.tokenBalances (s.proposalExecutions eid).token).balance
      < (s.proposalExecutions eid).amount
  · rw [if_pos h7] at h
    exact Except.noConfusion h
  rw [if_neg h7] at h
  by_cases h8 : (s.tokenBalances (s.proposalExecutions eid).token).allocated
      < (s.proposalExecutions eid).amount
  · rw [if_pos h8] at h
    exact Except.noConfusion h
  rw [if_neg h8] at h
  try rw [if_pos rfl] at h
  have hinj := Except.ok.inj h
  subst hinj
  refine ⟨by simpa using h4, ?_⟩
  simp [upd_same]

/-- An already-done execution can never transfer again. -/
theorem transfersFor_executed_false (e : Nat) (s : TreasuryState) (op : TOp)
    (hx : (s.proposalExecutions e).executed = true) :
    transfersFor e s op = false := by
  cases op with
  | executeProposal sender executionId now success =>
    by_cases he : executionId = e
    · have hx2 : (s.proposalExecutions executionId).executed = true := by
        rw [he]
        exact hx
      obtain ⟨err, herr⟩ :=
        executeProposalT_executed_errors s sender executionId now success hx2
      have hE : execT s (TOp.executeProposal sender executionId now success)
          = .error err := herr
      simp [transfersFor, hE, isOkT]
    · simp [transfersFor, he]
  | addSupportedToken sender token => rfl
  | depositETH sender value => rfl
  | depositToken sender token amount xferOk => rfl
  | scheduleProposalExecution sender pid recipient token amount data => rfl
  | createBudgetAllocation sender category token amount => rfl
  | spendFromBudget sender category recipient amount xferOk => rfl
  | addTreasuryManager sender m => rfl
  | removeTreasuryManager sender m => rfl
  | addEmergencyManager sender m => rfl
  | removeEmergencyManager sender m => rfl
  | toggleEmergencyMode sender => rfl
  | emergencyWithdraw sender token toA amount xferOk => rfl
  | receiveEth sender value => rfl
  | govCall op => rfl

/-- A transferring call goes from not-executed to executed on its id. -/
theorem transfersFor_true_inv (e : Nat) (s : TreasuryState) (op : TOp)
    (ht : transfersFor e s op = true) :
    (s.proposalExecutions e).executed = false ∧
    ((stepT s op).proposalExecutions e).executed = true := by
  cases op with
  | executeProposal sender executionId now success =>
    simp only [transfersFor, Bool.and_eq_true, beq_iff_eq] at ht
    obtain ⟨⟨he, hsu⟩, hok⟩ := ht
    subst he
    subst hsu
    cases hE : execT s (TOp.executeProposal sender executionId now true) with
    | error err =>
      rw [hE] at hok
      exact Bool.noConfusion hok
    | ok s' =>
      have hinv := executeProposalT_ok_true_inv s sender executionId now s'
        hE
      rw [stepT_eq_of_ok hE]
      exact hinv
  | addSupportedToken sender token => exact Bool.noConfusion ht
  | depositETH sender value => exact Bool.noConfusion ht
  | depositToken sender token amount xferOk => exact Bool.noConfusion ht
  | scheduleProposalExecution sender pid recipient token amount data =>
    exact Bool.noConfusion ht
  | createBudgetAllocation sender category token amount =>
    exact Bool.noConfusion ht
  | spendFromBudget sender category recipient amount xferOk =>
    exact Bool.noConfusion ht
  | addTreasuryManager sender m => exact Bool.noConfusion ht
  | removeTreasuryManager sender m => exact Bool.noConfusion ht
  | addEmergencyManager sender m => exact Bool.noConfusion ht
  | removeEmergencyManager sender m => exact Bool.noConfusion ht
  | toggleEmergencyMode sender => exact Bool.noConfusion ht
  | emergencyWithdraw sender token toA amount xferOk =>
    exact Bool.noConfusion ht
  | receiveEth sender value => exact Bool.noConfusion ht
  | govCall op => exact Bool.noConfusion ht

/-- At most one successful transfer per execution id, measured against the
executed flag. -/
theorem countTransfers_le (e : Nat) (ops : List TOp) :
    ∀ s : TreasuryState, ExecInv s →
    countTransfers e s ops ≤
      (if (s.proposalExecutions e).executed = true then 0 else 1) := by
  induction ops with
  | nil =>
    intro s hI
    simp [countTransfers]
  | cons op rest ih =>
    intro s hI
    have hrest := ih (stepT s op) (execInv_step s op hI)
    by_cases ht : transfersFor e s op = true
    · obtain ⟨hpre, hpost⟩ := transfersFor_true_inv e s op ht
      rw [if_pos hpost] at hrest
      have hcount : countTransfers e s (op :: rest) =
          1 + countTransfers e (stepT s op) rest := by
        simp [countTransfers, ht]
      rw [hcount, if_neg (by simp [hpre])]
      omega
    · have hcount : countTransfers e s (op :: rest) =
          countTransfers e (stepT s op) rest := by
        simp [countTransfers, ht]
      rw [hcount]
      cases hpre : (s.proposalExecutions e).executed with
      | true =>
        have hpost := execPerm_step s op hI e hpre
        rw [if_pos hpost] at hrest
        simpa using hrest
      | false =>
        have hb : (if (false : Bool) = true then (0 : Nat) else 1) = 1 := by
          simp
        rw [hb]
        refine le_trans hrest ?_
        split <;> omega

/-- Inversion of the failed-transfer path of `executeProposal`: the balance
and allocation decrements are compensated, the execution record is restored
to not-executed with all its scheduling data intact (retryable), and
nothing else in the treasury changed. -/
theorem executeProposalT_ok_false_inv (s : TreasuryState) (sender : Account)
    (eid now : Nat) (s' : TreasuryState)
    (h : DAOTreasury.executeProposal s sender eid now false = .ok s') :
    (∀ tok, s'.tokenBalances tok = s.tokenBalances tok) ∧
    (s'.proposalExecutions eid).executed = false ∧
    (s'.proposalExecutions eid).proposalId
      = (s.proposalExecutions eid).proposalId ∧
    (s'.proposalExecutions eid).recipient
      = (s.proposalExecutions eid).recipient ∧
    (s'.proposalExecutions eid).token = (s.proposalExecutions eid).token ∧
    (s'.proposalExecutions eid).amount = (s.proposalExecutions eid).amount ∧
    s'.totalProposalExecutions = s.totalProposalExecutions ∧
    s'.ethHeld = s.ethHeld ∧
    (∀ j, j ≠ eid → s'.proposalExecutions j = s.proposalExecutions j) := by
  unfold DAOTreasury.executeProposal at h
  by_cases h1 : ¬DAOTreasury.isManager s sender
  · rw [if_pos h1] at h
    exact Except.noConfusion h
  rw [if_neg h1] at h
  by_cases h2 : s.emergencyMode = true
  · rw [if_pos h2] at h
    exact Except.noConfusion h
  rw [if_neg h2] at h
  by_cases h3 : ¬(0 < eid ∧ eid ≤ s.totalProposalExecutions)
  · rw [if_pos h3] at h
    exact Except.noConfusion h
  rw [if_neg h3] at h
  simp only [] at h
  by_cases h4 : (s.proposalExecutions eid).executed = true
  · rw [if_pos h4] at h
    exact Except.noConfusion h
  rw [if_neg h4] at h
  by_cases h5 : ¬(0 < (s.proposalExecutions eid).proposalId ∧
      (s.proposalExecutions eid).proposalId ≤ s.gov.proposalCount)
  · rw [if_pos h5] at h
    exact Except.noConfusion h
  rw [if_neg h5] at h
  by_cases h6 : ¬(s.gov.proposals
      (s.proposalExecutions eid).proposalId).executed = true
  · rw [if_pos h6] at h
    exact Except.noConfusion h
  rw [if_neg h6] at h
  by_cases h7 : (s.tokenBalances (s.proposalExecutions eid).token).balance
      < (s.proposalExecutions eid).amount
  · rw [if_pos h7] at h
    exact Except.noConfusion h
  rw [if_neg h7] at h
  by_cases h8 : (s.tokenBalances (s.proposalExecutions eid).token).allocated
      < (s.proposalExecutions eid).amount
  · rw [if_pos h8] at h
    exact Except.noConfusion h
  rw [if_neg h8] at h
  try rw [if_neg (by simp : ¬(false : Bool) = true)] at h
  have hinj := Except.ok.inj h
  subst hinj
  refine ⟨?_, by simp [upd_same], by simp [upd_same], by simp [upd_same],
    by simp [upd_same], by simp [upd_same], rfl, rfl,
    fun j hj => upd_other _ _ _ _ hj⟩
  intro tok
  by_cases htk : tok = (s.proposalExecutions eid).token
  · rw [htk]
    show upd s.tokenBalances (s.proposalExecutions eid).token _
      (s.proposalExecutions eid).token
      = s.tokenBalances (s.proposalExecutions eid).token
    rw [upd_same]
    have hb : (s.tokenBalances (s.proposalExecutions eid).token).balance
        - (s.proposalExecutions eid).amount
        + (s.proposalExecutions eid).amount
        = (s.tokenBalances (s.proposalExecutions eid).token).balance := by
      omega
    have ha : (s.tokenBalances (s.proposalExecutions eid).token).allocated
        - (s.proposalExecutions eid).amount
        + (s.proposalExecutions eid).amount
        = (s.tokenBalances (s.proposalExecutions eid).token).allocated := by
      omega
    rw [hb, ha]
  · show upd s.tokenBalances (s.proposalExecutions eid).token _ tok
      = s.tokenBalances tok
    rw [upd_other _ _ _ _ htk]

/-- C6: treasury `executeProposal` fails on an unknown or already-executed
id; with a valid, unexecuted id it fails `NotApproved` unless the referenced
proposal is recorded `Executed` in governance (and reverts `NotFound` when
the referenced proposal id does not even exist); a failed external transfer
rolls the balance/allocation decrement back, leaves `executed = false` and
the record retryable; a successful transfer permanently marks the execution
done; and along any call sequence from the initial treasury at most one
invocation ever performs a successful transfer for a given id. -/
theorem c6_execute_execution :
    (∀ (s : TreasuryState) (sender : Account) (eid now : Nat)
      (success : Bool),
      DAOTreasury.isManager s sender → s.emergencyMode = false →
      ¬(0 < eid ∧ eid ≤ s.totalProposalExecutions) →
      DAOTreasury.executeProposal s sender eid now success
        = .error .notFound) ∧
    (∀ (s : TreasuryState) (sender : Account) (eid now : Nat)
      (success : Bool),
      DAOTreasury.isManager s sender → s.emergencyMode = false →
      0 < eid → eid ≤ s.totalProposalExecutions →
      (s.proposalExecutions eid).executed = true →
      DAOTreasury.executeProposal s sender eid now success
        = .error .stateError) ∧
    (∀ (s : TreasuryState) (sender : Account) (eid now : Nat)
      (success : Bool),
      DAOTreasury.isManager s sender → s.emergencyMode = false →
      0 < eid → eid ≤ s.totalProposalExecutions →
      (s.proposalExecutions eid).executed = false →
      0 < (s.proposalExecutions eid).proposalId →
      (s.proposalExecutions eid).proposalId ≤ s.gov.proposalCount →
      (s.gov.proposals (s.proposalExecutions eid).proposalId).executed
        = false →
      DAOTreasury.executeProposal s sender eid now success
        = .error .notApproved) ∧
    (∀ (s : TreasuryState) (sender : Account) (eid now : Nat)
      (s' : TreasuryState),
      DAOTreasury.executeProposal s sender eid now false = .ok s' →
      (∀ tok, s'.tokenBalances tok = s.tokenBalances tok) ∧
      (s'.proposalExecutions eid).executed = false ∧
      (s'.proposalExecutions eid).recipient
        = (s.proposalExecutions eid).recipient ∧
      (s'.proposalExecutions eid).token
        = (s.proposalExecutions eid).token ∧
      (s'.proposalExecutions eid).amount
        = (s.proposalExecutions eid).amount) ∧
    (∀ (s : TreasuryState) (sender : Account) (eid now : Nat)
      (s' : TreasuryState),
      DAOTreasury.executeProposal s sender eid now true = .ok s' →
      (s.proposalExecutions eid).executed = false ∧
      (s'.proposalExecutions eid).executed = true) ∧
    (∀ (g : GovState) (ownerA : Account) (e : Nat) (ops more : List TOp),
      ((runT (initTreasury g ownerA) ops).proposalExecutions e).executed
        = true →
      ((runT (initTreasury g ownerA)
        (ops ++ more)).proposalExecutions e).executed = true) ∧
    (∀ (g : GovState) (ownerA : Account) (e : Nat) (ops : List TOp),
      countTransfers e (initTreasury g ownerA) ops ≤ 1) := by
  refine ⟨?_, ?_, ?_, ?_, ?_, ?_, ?_⟩
  · intro s sender eid now success h1 h2 h3
    unfold DAOTreasury.executeProposal
    rw [if_neg (not_not_intro h1), if_neg (by simp [h2]), if_pos h3]
  · intro s sender eid now success h1 h2 he1 he2 hx
    unfold DAOTreasury.executeProposal
    rw [if_neg (not_not_intro h1), if_neg (by simp [h2]),
      if_neg (by omega : ¬¬(0 < eid ∧ eid ≤ s.totalProposalExecutions))]
    simp only []
    rw [if_pos hx]
  · intro s sender eid now success h1 h2 he1 he2 hx hp1 hp2 hge
    unfold DAOTreasury.executeProposal
    rw [if_neg (not_not_intro h1), if_neg (by simp [h2]),
      if_neg (by omega : ¬¬(0 < eid ∧ eid ≤ s.totalProposalExecutions))]
    simp only []
    rw [if_neg (by simp [hx]),
      if_neg (by omega : ¬¬(0 < (s.proposalExecutions eid).proposalId ∧
        (s.proposalExecutions eid).proposalId ≤ s.gov.proposalCount)),
      if_pos (by simp [hge])]
  · intro s sender eid now s' h
    have hi := executeProposalT_ok_false_inv s sender eid now s' h
    exact ⟨hi.1, hi.2.1, hi.2.2.2.1, hi.2.2.2.2.1, hi.2.2.2.2.2.1⟩
  · intro s sender eid now s' h
    exact executeProposalT_ok_true_inv s sender eid now s' h
  · intro g ownerA e ops more hx
    have happ : runT (initTreasury g ownerA) (ops ++ more) =
        runT (runT (initTreasury g ownerA) ops) more := by
      unfold runT
      exact List.foldl_append _ _ _ _
    rw [happ]
    exact execPerm_run more e _ (execInv_run ops _ (execInv_init g ownerA))
      hx
  · intro g ownerA e ops
    have hle := countTransfers_le e ops (initTreasury g ownerA)
      (execInv_init g ownerA)
    have h0 : ((initTreasury g ownerA).proposalExecutions e).executed
        = false := rfl
    rw [if_neg (by simp [h0])] at hle
    exact hle

/-- Witness for C6: on the concrete failed-transfer run `c6t2 → c6t3`, the
balance record is fully rolled back and execution 1 stays retryable
(unexecuted, amount intact); and the at-most-once bound holds on a concrete
trace that attempts execution 1 twice. -/
theorem c6_execute_execution_witness :
    c6t3.tokenBalances 0 = c6t2.tokenBalances 0 ∧
    (c6t3.proposalExecutions 1).executed = false ∧
    (c6t3.proposalExecutions 1).amount = 5 ∧
    countTransfers 1 (initTreasury c7sE 9)
      [TOp.depositETH 7 10,
        TOp.scheduleProposalExecution 50 1 4 0 5 "",
        TOp.executeProposal 9 1 60 true,
        TOp.executeProposal 9 1 61 true] ≤ 1 := by
  have h := c6_execute_execution.2.2.2.1 c6t2 9 1 60 c6t3 rfl
  refine ⟨h.1 0, h.2.1, ?_, ?_⟩
  · rw [h.2.2.2.2]
    rfl
  · exact c6_execute_execution.2.2.2.2.2.2 c7sE 9 1 _
